import Mathlib

/-!
# Verification of the Work-clustering core of server_core

A shallow embedding, in Lean 4, of the clustering / presentation logic of
`src/model.py`, together with theorems settling the frozen claims about it.

Conventions of the embedding:
* Python strings are Lean `String`s; SQLAlchemy `Column` values that may be
  NULL are `Option` values; Python float arithmetic is modelled with `ℚ`
  (the claims only exercise exact values).
* Python truthiness (`if x:`) is translated explicitly: `None`, `0`,
  `0.0` and `""` are falsy.
* Identifier values (`identifier.identifier`) are modelled as `Int`:
  the only place the string content matters is the Gutenberg tie-break of
  `better_open_access_pool_than`, which applies `int(...)` to them.
* A Python method that can raise becomes a function returning `Option`
  / a result carrying an error case, raised exactly where the source raises.
-/

namespace SC

/-! ## DataSource constants (model.py, class DataSource) -/

def GUTENBERG : String := "Gutenberg"
def OVERDRIVE : String := "Overdrive"
def PROJECT_GITENBERG : String := "Project GITenberg"
def STANDARD_EBOOKS : String := "Standard Ebooks"
def UNGLUE_IT : String := "unglue.it"
def BIBLIOTHECA : String := "Bibliotheca"
def AMAZON : String := "Amazon"
def AXIS_360 : String := "Axis 360"
def CONTENT_CAFE : String := "Content Cafe"
def GUTENBERG_EPUB_GENERATOR : String := "Project Gutenberg EPUB Generator"
def METADATA_WRANGLER : String := "Library Simplified metadata wrangler"
def NOVELIST : String := "NoveList Select"
def LIBRARY_STAFF : String := "Library staff"
def PLYMPTON : String := "Plympton"
def THETA : String := "Theta"

/-- `DataSource.THREEM = BIBLIOTHECA` -/
def THREEM : String := BIBLIOTHECA

/-- `DataSource.OPEN_ACCESS_SOURCE_PRIORITY` (model.py lines 688-695):
sources of open-access content in ascending order of priority. -/
def OPEN_ACCESS_SOURCE_PRIORITY : List String :=
  [UNGLUE_IT, GUTENBERG, GUTENBERG_EPUB_GENERATOR, PROJECT_GITENBERG,
   PLYMPTON, STANDARD_EBOOKS]

/-- `Representation.EPUB_MEDIA_TYPE` -/
def EPUB_MEDIA_TYPE : String := "application/epub+zip"

/-- `Representation.SUPPORTED_BOOK_MEDIA_TYPES` (model.py lines 6619-6621) -/
def SUPPORTED_BOOK_MEDIA_TYPES : List String := [EPUB_MEDIA_TYPE]

/-! ## Resources and LicensePools -/

/-- The parts of a `Representation` row read by the open-access link
selection: its media type (may be NULL) and the URL it was mirrored to. -/
structure Representation where
  media_type : Option String
  mirror_url : String
deriving DecidableEq, Repr

/-- The parts of a `Resource` row read by the open-access link selection. -/
structure Resource where
  rid : Nat
  data_source_name : String
  representation : Option Representation
deriving DecidableEq, Repr

/-- `'noimages' in url` (Python substring test). -/
def noimagesIn (url : String) : Bool :=
  decide (List.IsInfix ("noimages".toList) url.toList)

/-- `s.startswith(pre)` (Python prefix test), on the characters of the
strings. -/
def pyStartswith (s pre : String) : Bool :=
  pre.toList.isPrefixOf s.toList

/-- The media-type test of `LicensePool.best_open_access_link`
(model.py lines 6158-6162): the resource has a representation whose
media type starts with a supported book media type.  (An absent or empty
media type is falsy in Python and fails the test.) -/
def supportedBookResource (r : Resource) : Bool :=
  SUPPORTED_BOOK_MEDIA_TYPES.any (fun x =>
    match r.representation with
    | some rep =>
      match rep.media_type with
      | some mt => pyStartswith mt x
      | none => false
    | none => false)

/-- The fields of a `LicensePool` row (and of its related rows) read by the
champion-selection logic, plus its presentation-edition pointer.
`identifier` is the pool's Identifier, `none` when the pool has no
Identifier; `open_access_links` are the open-access Resources for the
pool's identifier, in query order. -/
structure LicensePool where
  pid : Nat := 0
  data_source_name : String
  identifier : Option Int := some 0
  open_access : Bool
  suppressed : Bool := false
  superceded : Bool := false
  open_access_links : List Resource := []
  presentation_edition : Option Nat := none
deriving DecidableEq, Repr

namespace LicensePool

/-- `LicensePool.open_access_source_priority` (model.py lines 5606-5623):
index of the pool's data source in `OPEN_ACCESS_SOURCE_PRIORITY`, or -1
when the source is not in the list. -/
def open_access_source_priority (p : LicensePool) : Int :=
  match OPEN_ACCESS_SOURCE_PRIORITY.findIdx? (· = p.data_source_name) with
  | some i => (i : Int)
  | none => -1

/-- One iteration of the `for resource in self.open_access_links` loop of
`LicensePool.best_open_access_link` (model.py lines 6157-6183), carrying
`(best, best_priority)`. -/
def bestLinkStep (p : LicensePool) (acc : Option Resource × Int)
    (r : Resource) : Option Resource × Int :=
  if !supportedBookResource r then acc
  else
    -- data_source_priority = self.open_access_source_priority
    let dsp := open_access_source_priority p
    match acc with
    | (none, _) => (some r, dsp)
    | (some best, bestPriority) =>
      if dsp > bestPriority then (some r, dsp)
      else if best.data_source_name = GUTENBERG
          && r.data_source_name = GUTENBERG
          && noimagesIn ((best.representation.map Representation.mirror_url).getD "")
          && !noimagesIn ((r.representation.map Representation.mirror_url).getD "") then
        -- (a `best` without representation cannot occur here: it passed the
        -- media-type test, which requires a representation)
        (some r, dsp)
      else (some best, bestPriority)

/-- `LicensePool.best_open_access_link` (model.py lines 6152-6185). -/
def best_open_access_link (p : LicensePool) : Option Resource :=
  (p.open_access_links.foldl (bestLinkStep p) (none, -1)).1

/-- `LicensePool.better_open_access_pool_than` (model.py lines 5625-5678).
The champion, when present, always has an identifier in the callers we
model (it was itself admitted by this function), so the source's
`int(champion.identifier.identifier)` is total here. -/
def better_open_access_pool_than (self : LicensePool)
    (champion : Option LicensePool) : Bool :=
  match self.identifier with
  | none => false
  | some challengerId =>
    if self.suppressed then false
    else if !self.open_access then false
    else
      match champion with
      | none => true
      | some champ =>
        match best_open_access_link self with
        | none => false
        | some _ =>
          let champion_priority := open_access_source_priority champ
          let challenger_priority := open_access_source_priority self
          if challenger_priority > champion_priority then true
          else if challenger_priority < champion_priority then false
          else if self.data_source_name = GUTENBERG
              && champ.data_source_name = self.data_source_name then
            match champ.identifier with
            | some championId => decide (challengerId > championId)
            | none => false
          else false

end LicensePool

/-- `champion_open_access_license_pool.superceded = True` (model.py lines
4213-4214): mark the pool the champion index points at, if any, as
superceded. -/
def dethrone (done : List LicensePool) (champ : Option Nat) :
    List LicensePool :=
  match champ with
  | some i =>
    match done[i]? with
    | some c => done.set i {c with superceded := true}
    | none => done
  | none => done

/-- One iteration of the `for pool in self.license_pools` loop of
`Work.mark_licensepools_as_superceded` (model.py lines 4207-4218).  The
accumulator holds the pools already processed (with their new `superceded`
flags) and the index, within them, of the current champion open-access
pool, if any. -/
def markStep (acc : List LicensePool × Option Nat) (pool : LicensePool) :
    List LicensePool × Option Nat :=
  let done := acc.1
  let champ := acc.2
  if !pool.open_access then
    (done ++ [{pool with superceded := false}], champ)
  else if pool.better_open_access_pool_than
      (champ.bind (fun i => done[i]?)) then
    (dethrone done champ ++ [{pool with superceded := false}],
     some (dethrone done champ).length)
  else
    (done ++ [{pool with superceded := true}], champ)

/-- `Work.mark_licensepools_as_superceded` (model.py lines 4201-4218),
acting on the Work's list of pools and returning them with their new
`superceded` flags. -/
def mark_licensepools_as_superceded (pools : List LicensePool) :
    List LicensePool :=
  (pools.foldl markStep ([], none)).1

/-- The champion open-access pool `mark_licensepools_as_superceded` ends
with, as an index into the returned list. -/
def markChampion (pools : List LicensePool) : Option Nat :=
  (pools.foldl markStep ([], none)).2

/-- The invariant the `mark_licensepools_as_superceded` loop maintains over
its accumulator: a non-open-access pool already processed is unmarked, an
open-access pool already processed is unmarked exactly when it is the
current champion, and the champion index points at an open-access pool. -/
structure MarkInv (acc : List LicensePool × Option Nat) : Prop where
  non_oa : ∀ (i : Nat) (p : LicensePool), acc.1[i]? = some p →
    p.open_access = false → p.superceded = false
  oa : ∀ (i : Nat) (p : LicensePool), acc.1[i]? = some p →
    p.open_access = true → (p.superceded = false ↔ acc.2 = some i)
  champ_lt : ∀ i : Nat, acc.2 = some i → i < acc.1.length
  champ_oa : ∀ (i : Nat) (p : LicensePool), acc.2 = some i →
    acc.1[i]? = some p → p.open_access = true


/-- The priority `open_access_source_priority` computes, as a function of a
data source name (used to state which priority the spec expects candidate
resources to be compared by). -/
def sourceNamePriority (nm : String) : Int :=
  match OPEN_ACCESS_SOURCE_PRIORITY.findIdx? (· = nm) with
  | some i => (i : Int)
  | none => -1

/-- One step of the corrected description of `best_open_access_link`:
an unsupported candidate is rejected; the first supported candidate is
kept (the priority the code compares is the pool's own source priority
for champion and challenger alike, so a later candidate never wins on
priority); a challenger replaces the current best only when both come
from Project Gutenberg and the best's mirrored filename contains
'noimages' while the challenger's does not. -/
def bestLinkAmendedStep (acc : Option Resource) (r : Resource) :
    Option Resource :=
  if !supportedBookResource r then acc
  else
    match acc with
    | none => some r
    | some best =>
      if best.data_source_name = GUTENBERG
          && r.data_source_name = GUTENBERG
          && noimagesIn ((best.representation.map Representation.mirror_url).getD "")
          && !noimagesIn ((r.representation.map Representation.mirror_url).getD "") then
        some r
      else some best

/-- The corrected description of `best_open_access_link` as a function. -/
def best_open_access_link_amended (p : LicensePool) : Option Resource :=
  p.open_access_links.foldl bestLinkAmendedStep none

/-- Candidate resources for the C7 counterexample: a supported EPUB from
unglue.it (priority 0) listed before a supported EPUB from Standard
Ebooks (priority 5). -/
def c7LowPriorityResource : Resource :=
  { rid := 1, data_source_name := UNGLUE_IT,
    representation := some { media_type := some EPUB_MEDIA_TYPE, mirror_url := "r1.epub" } }

def c7HighPriorityResource : Resource :=
  { rid := 2, data_source_name := STANDARD_EBOOKS,
    representation := some { media_type := some EPUB_MEDIA_TYPE, mirror_url := "r2.epub" } }

/-- The C7 counterexample pool, holding both candidate resources. -/
def c7Pool : LicensePool :=
  { data_source_name := GUTENBERG, identifier := some 1, open_access := true,
    open_access_links := [c7LowPriorityResource, c7HighPriorityResource] }

/-! ## Measurements (model.py, class Measurement) -/

def POPULARITY : String := "http://librarysimplified.org/terms/rel/popularity"
def QUALITY : String := "http://librarysimplified.org/terms/rel/quality"
def RATING : String := "http://schema.org/ratingValue"
def DOWNLOADS : String := "https://schema.org/UserDownloads"

/-- `Measurement.POPULARITY_PERCENTILES[DataSource.OVERDRIVE]` (model.py line 4301) -/
def OVERDRIVE_POPULARITY_PERCENTILES : List ℚ :=
  [1, 1, 1, 2, 2, 2, 3, 3, 4, 4, 5, 5, 6, 6, 7, 7, 8, 9, 9, 10, 10, 11,
   12, 13, 14, 15, 15, 16, 18, 19, 20, 21, 22, 24, 25, 26, 28, 30, 31,
   33, 35, 37, 39, 41, 43, 46, 48, 51, 53, 56, 59, 63, 66, 70, 74, 78,
   82, 87, 92, 97, 102, 108, 115, 121, 128, 135, 142, 150, 159, 168,
   179, 190, 202, 216, 230, 245, 260, 277, 297, 319, 346, 372, 402,
   436, 478, 521, 575, 632, 702, 777, 861, 965, 1100, 1248, 1428, 1665,
   2020, 2560, 3535, 5805]

/-- `Measurement.POPULARITY_PERCENTILES[DataSource.AMAZON]` (model.py line 4302) -/
def AMAZON_POPULARITY_PERCENTILES : List ℚ :=
  [14937330, 1974074, 1702163, 1553600, 1432635, 1327323, 1251089,
   1184878, 1131998, 1075720, 1024272, 978514, 937726, 898606, 868506,
   837523, 799879, 770211, 743194, 718052, 693932, 668030, 647121,
   627642, 609399, 591843, 575970, 559942, 540713, 524397, 511183,
   497576, 483884, 470850, 458438, 444475, 432528, 420088, 408785,
   398420, 387895, 377244, 366837, 355406, 344288, 333747, 324280,
   315002, 305918, 296420, 288522, 279185, 270824, 262801, 253865,
   246224, 238239, 230537, 222611, 215989, 208641, 202597, 195817,
   188939, 181095, 173967, 166058, 160032, 153526, 146706, 139981,
   133348, 126689, 119201, 112447, 106795, 101250, 96534, 91052, 85837,
   80619, 75292, 69957, 65075, 59901, 55616, 51624, 47598, 43645,
   39403, 35645, 31795, 27990, 24496, 20780, 17740, 14102, 10498, 7090,
   3861]

/-- `Measurement.POPULARITY_PERCENTILES[DataSource.CONTENT_CAFE]` (model.py line 4310) -/
def CONTENT_CAFE_POPULARITY_PERCENTILES : List ℚ :=
  [0, 1, 1, 1, 1, 1, 1, 1, 1, 1, 1, 1, 1, 1, 1, 1, 1, 1, 1, 1, 1, 1, 1,
   1, 1, 1, 1, 1, 1, 1, 1, 1, 1, 1, 1, 1, 1, 1, 1, 1, 1, 1, 1, 1, 1, 1,
   1, 1, 2, 2, 2, 2, 2, 2, 2, 2, 2, 2, 2, 2, 2, 2, 2, 2, 2, 2, 2, 2, 3,
   3, 3, 3, 3, 3, 3, 3, 3, 4, 4, 4, 4, 4, 4, 5, 5, 5, 5, 6, 6, 7, 8, 9,
   10, 11, 14, 18, 25, 41, 125, 387]

/-- `Measurement.DOWNLOAD_PERCENTILES[DataSource.GUTENBERG]` (model.py line 4321) -/
def GUTENBERG_DOWNLOAD_PERCENTILES : List ℚ :=
  [0, 1, 2, 3, 4, 5, 5, 6, 7, 7, 8, 8, 9, 9, 10, 10, 11, 12, 12, 12,
   13, 14, 14, 15, 15, 16, 16, 17, 18, 18, 19, 19, 20, 21, 21, 22, 23,
   23, 24, 25, 26, 27, 28, 28, 29, 30, 32, 33, 34, 35, 36, 37, 38, 40,
   41, 43, 45, 46, 48, 50, 52, 55, 57, 60, 62, 65, 69, 72, 76, 79, 83,
   87, 93, 99, 106, 114, 122, 130, 140, 152, 163, 179, 197, 220, 251,
   281, 317, 367, 432, 501, 597, 658, 718, 801, 939, 1065, 1286, 1668,
   2291, 4139]
/-- `Measurement.POPULARITY_PERCENTILES` (model.py lines 4300-4318) as a
lookup by data source name. -/
def POPULARITY_PERCENTILES (source : String) : Option (List ℚ) :=
  if source = OVERDRIVE then some OVERDRIVE_POPULARITY_PERCENTILES
  else if source = AMAZON then some AMAZON_POPULARITY_PERCENTILES
  else if source = CONTENT_CAFE then some CONTENT_CAFE_POPULARITY_PERCENTILES
  else none

/-- `Measurement.DOWNLOAD_PERCENTILES` (model.py lines 4320-4322). -/
def DOWNLOAD_PERCENTILES (source : String) : Option (List ℚ) :=
  if source = GUTENBERG then some GUTENBERG_DOWNLOAD_PERCENTILES
  else none

/-- `Measurement.RATING_SCALES` (model.py lines 4324-4329). -/
def RATING_SCALES (source : String) : Option (ℚ × ℚ) :=
  if source = OVERDRIVE then some (1, 5)
  else if source = AMAZON then some (1, 5)
  else if source = UNGLUE_IT then some (1, 5)
  else if source = NOVELIST then some (0, 5)
  else none

/-- CPython's `bisect.bisect_left` main loop: binary search for the
leftmost insertion point of `v` in `d` between `lo` and `hi`.  The `fuel`
argument only makes the recursion structural; `hi - lo` shrinks at every
step, so any `fuel ≥ hi - lo` computes the loop to completion. -/
def bisectLeftLoop (d : List ℚ) (v : ℚ) : Nat → Nat → Nat → Nat
  | 0, lo, _ => lo
  | fuel + 1, lo, hi =>
    if lo < hi then
      let mid := (lo + hi) / 2
      if d.getD mid 0 < v then bisectLeftLoop d v fuel (mid + 1) hi
      else bisectLeftLoop d v fuel lo mid
    else lo

/-- `bisect.bisect_left(d, v)` as used by `Measurement.normalized_value`. -/
def bisect_left (d : List ℚ) (v : ℚ) : Nat :=
  bisectLeftLoop d v d.length 0 d.length

/-- Python truthiness of an optional number: `None`, `0` and `0.0` are
falsy. -/
def optTruthy (o : Option ℚ) : Bool :=
  match o with
  | some q => decide (q ≠ 0)
  | none => false

/-- The fields of a `Measurement` row read by the quality computation.
`normalized_value_stored` is the `normalized_value` column
(`_normalized_value` in the mapper). -/
structure Measurement where
  quantity_measured : String
  value : Option ℚ
  normalized_value_stored : Option ℚ := none
  weight : ℚ := 1
  data_source_name : String
deriving DecidableEq, Repr

namespace Measurement

/-- `Measurement.normalized_value` (model.py lines 4440-4466).  The source
caches the computed value in `self._normalized_value` and returns that
field; each branch below returns what the field holds when the final
`return self._normalized_value` runs.  Note `if self._normalized_value:`
is a Python truthiness test: a stored `0.0` (or `None`) falls through to
the `elif` chain, and a stored `0.0` that no `elif` matches is returned
as is. -/
def normalized_value (m : Measurement) : Option ℚ :=
  if optTruthy m.normalized_value_stored then m.normalized_value_stored
  else if !optTruthy m.value then none
  else
    let v := m.value.getD 0
    if decide (m.quantity_measured = POPULARITY)
        && (POPULARITY_PERCENTILES m.data_source_name).isSome then
      some ((bisect_left ((POPULARITY_PERCENTILES m.data_source_name).getD []) v : ℚ)
        * (1/100))
    else if decide (m.quantity_measured = DOWNLOADS)
        && (DOWNLOAD_PERCENTILES m.data_source_name).isSome then
      some ((bisect_left ((DOWNLOAD_PERCENTILES m.data_source_name).getD []) v : ℚ)
        * (1/100))
    else if decide (m.quantity_measured = RATING)
        && (RATING_SCALES m.data_source_name).isSome then
      let sc := (RATING_SCALES m.data_source_name).getD (0, 1)
      some ((v - sc.1) / (sc.2 - sc.1))
    else if m.data_source_name = METADATA_WRANGLER then
      m.value
    else
      m.normalized_value_stored

end Measurement

/-- `Measurement._average_normalized_value` (model.py lines 4425-4438):
the weighted average of the usable normalized values, `none` when the
weights of the usable measurements sum to zero. -/
def _average_normalized_value (measurements : List Measurement) : Option ℚ :=
  let acc := measurements.foldl
    (fun (acc : ℚ × ℚ) m =>
      match m.normalized_value with
      | none => acc
      | some v => (acc.1 + m.weight, acc.2 + v * m.weight))
    (0, 0)
  -- (num_measurements, measurement_total); `if num_measurements:`
  if acc.1 ≠ 0 then some (acc.2 / acc.1) else none

/-- The popularity/download side of `Measurement.overall_quality`'s
grouping loop (model.py lines 4379-4391). -/
def popularityAvg (measurements : List Measurement) : Option ℚ :=
  _average_normalized_value (measurements.filter
    (fun m => decide (m.quantity_measured = POPULARITY)
      || decide (m.quantity_measured = DOWNLOADS)))

/-- The rating side of `Measurement.overall_quality`'s grouping loop. -/
def ratingAvg (measurements : List Measurement) : Option ℚ :=
  _average_normalized_value (measurements.filter
    (fun m => decide (m.quantity_measured = RATING)))

/-- The quality side of `Measurement.overall_quality`'s grouping loop. -/
def qualityAvg (measurements : List Measurement) : Option ℚ :=
  _average_normalized_value (measurements.filter
    (fun m => decide (m.quantity_measured = QUALITY)))

/-- `Measurement.overall_quality` (model.py lines 4367-4423).  `none`
models the `ValueError` raised when the weights do not sum to 1. -/
def overall_quality (measurements : List Measurement)
    (popularity_weight : ℚ := 3/10) (rating_weight : ℚ := 7/10)
    (default_value : ℚ := 0) : Option ℚ :=
  if popularity_weight + rating_weight ≠ 1 then none
  else
    let popularity := popularityAvg measurements
    let rating := ratingAvg measurements
    let quality := qualityAvg measurements
    if popularity = none ∧ rating = none ∧ quality = none then
      some default_value
    else if popularity ≠ none ∧ rating = none ∧ quality = none then
      popularity
    else if rating ≠ none ∧ popularity = none ∧ quality = none then
      rating
    else if quality ≠ none ∧ rating = none ∧ popularity = none then
      quality
    else
      -- We have at least two of the three... but which two?
      let final : ℚ :=
        match popularity, rating with
        | none, _ => rating.getD 0
        | some p, none => p
        | some p, some r => p * popularity_weight + r * rating_weight
      -- `if quality:` — a quality average of 0.0 is falsy and is skipped
      if optTruthy quality then some (final / 2 + (quality.getD 0) / 2)
      else some final

/-- The C6 measurements: an Overdrive popularity measurement whose value
34 sits at percentile 40 of the Overdrive popularity table, and a quality
measurement carrying a stored normalized value of exactly 0 (usable, but
falsy for `if quality:`). -/
def c6PopularityMeasurement : Measurement :=
  { quantity_measured := POPULARITY, value := some 34,
    data_source_name := OVERDRIVE }

def c6ZeroQualityMeasurement : Measurement :=
  { quantity_measured := QUALITY, value := some 1,
    normalized_value_stored := some 0, data_source_name := GUTENBERG }

/-- `Work.default_quality_by_data_source` (model.py lines 2984-2993). -/
def default_quality_by_data_source (source : String) : Option ℚ :=
  if source = GUTENBERG then some 0
  else if source = OVERDRIVE then some (2/5)
  else if source = THREEM then some (13/20)
  else if source = THETA then some 0
  else if source = AXIS_360 then some (13/20)
  else if source = STANDARD_EBOOKS then some (4/5)
  else if source = UNGLUE_IT then some (2/5)
  else if source = PLYMPTON then some (1/2)
  else none

/-- `licensed_data_sources` (model.py lines 3611-3617): the data sources
of the Work's pools, excluding Gutenberg.  (The source builds a set; only
membership matters downstream, so a deduplicated list stands in for it.) -/
def licensedDataSources (pools : List LicensePool) : List String :=
  ((pools.map LicensePool.data_source_name).filter
    (fun s => decide (s ≠ GUTENBERG))).dedup

/-- The maximum configured default quality over the given sources: what
the `for source in licensed_data_sources` loop of
`Work.calculate_presentation` (model.py lines 3648-3656) accumulates in
`default_quality`. -/
def maxConfiguredDefaultQuality (sources : List String) : Option ℚ :=
  sources.foldl
    (fun (default_quality : Option ℚ) source =>
      match default_quality_by_data_source source with
      | none => default_quality
      | some q =>
        match default_quality with
        | none => some q
        | some dq => if q > dq then some q else some dq)
    none

/-- The `default_quality` actually passed to `calculate_quality` by
`Work.calculate_presentation` (model.py lines 3648-3659).  The loop at
lines 3649-3656 is a Python `for ... else`: the `else` clause runs
whenever the loop finishes without `break`, and this loop contains no
`break`, so after the maximum is accumulated the `else` clause at lines
3657-3658 unconditionally overwrites `default_quality` with 0. -/
def calculatePresentationDefaultQuality (sources : List String) : ℚ :=
  let default_quality := maxConfiguredDefaultQuality sources
  let _ := default_quality
  0

/-- The C8 Work's only pool: a commercial pool from 3M/Bibliotheca, a
source with a configured nonzero default quality (0.65). -/
def c8CommercialPool : LicensePool :=
  { data_source_name := THREEM, open_access := false }


/-! ## The Identity Graph (Identifier / Equivalency) -/

/-- An `Equivalency` row (model.py, class Equivalency): a directed edge
between identifier ids, owned by some source, with a strength. -/
structure Equivalency where
  input : Nat
  output : Nat
  strength : ℚ
deriving DecidableEq, Repr

/-- Modelled from the spec: the SQL function `fn_recursive_equivalents`
(files/recursive_equivalents.sql), which
`Identifier.recursively_equivalent_identifier_ids` (model.py lines
1443-1466) delegates to, is not under src/.  Spec §4.1: the traversal
treats Equivalency edges as undirected and includes an edge only if its
strength ≥ threshold.  `undirectedNeighbors edges threshold i` is the ids
one such hop away from `i`. -/
def undirectedNeighbors (edges : List Equivalency) (threshold : ℚ)
    (i : Nat) : List Nat :=
  edges.filterMap (fun e =>
    if decide (threshold ≤ e.strength) then
      if e.input = i then some e.output
      else if e.output = i then some e.input
      else none
    else none)

/-- Modelled from the spec: one breadth level of the traversal — the ids
already reached together with everything one admissible hop away. -/
def expandOnce (edges : List Equivalency) (threshold : ℚ)
    (s : Finset Nat) : Finset Nat :=
  s ∪ s.biUnion (fun i => (undirectedNeighbors edges threshold i).toFinset)

/-- Modelled from the spec (§4.1): `equivalent_ids` for one seed — a
breadth-limited traversal of at most `levels` hops over Equivalency
edges treated as undirected, using only edges of strength ≥ `threshold`,
starting from the seed. -/
def equivalent_ids (edges : List Equivalency) (levels : Nat)
    (threshold : ℚ) (seed : Nat) : Finset Nat :=
  (expandOnce edges threshold)^[levels] {seed}

/-- `Identifier.recursively_equivalent_identifier_ids` (model.py lines
1443-1466): the per-seed dictionary, one entry per seed id. -/
def recursively_equivalent_identifier_ids (edges : List Equivalency)
    (identifier_ids : List Nat) (levels : Nat := 5)
    (threshold : ℚ := 1/2) : List (Nat × Finset Nat) :=
  identifier_ids.map (fun s => (s, equivalent_ids edges levels threshold s))

/-- `b` is reachable from `a` in at most `n` hops over Equivalency edges
treated as undirected, each hop using an edge of strength ≥ threshold. -/
inductive ReachableWithin (edges : List Equivalency) (threshold : ℚ) :
    Nat → Nat → Nat → Prop where
  | refl (n a : Nat) : ReachableWithin edges threshold n a a
  | step (n a b c : Nat) : ReachableWithin edges threshold n a b →
      c ∈ undirectedNeighbors edges threshold b →
      ReachableWithin edges threshold (n + 1) a c


/-! ## The Work Clustering Engine

The clustering state: `Work`, `LicensePool` and `Edition` rows, restricted
to the fields the clustering methods read and write.  Relationships are
modelled the way the SQLAlchemy mappers declare them:

* `LicensePool.work_id` and `LicensePool.presentation_edition_id` are
  columns of the pool; `Work.license_pools` is the backref
  (`poolsOfWork`), and `Edition.is_presentation_for` is the backref of
  the pool's presentation edition (`isPresentationFor`), both derived.
* `Work.presentation_edition_id` is a column of the Work (model.py line
  3003); `Edition.work` (model.py line 2248) is its backref — "the Work
  this Edition is the presentation edition for" — derived
  (`editionWorkOf`), and assigning `edition.work = None` clears that
  Work's presentation edition (`clearEditionWork`).
* `Work.work_genres` has `cascade="all, delete-orphan"` (model.py lines
  3011-3012), so deleting a Work deletes its genre rows;
  `Work.coverage_records` has no delete cascade, so deleting a Work
  leaves its coverage rows with a nulled `work_id`.
* `calculate_presentation` only (re)derives display attributes; on this
  state its only write is the Work's presentation-edition pointer, chosen
  among the Work's own member pools (and the accompanying
  `is_presentation_for.work = self`, which re-affirms that member's
  existing membership).  None of the clustering paths proved about below
  read that pointer after such a call, so it is modelled as the
  identity.
-/

def BOOK_MEDIUM : String := "Book"

/-- The clustering-relevant fields of an `Edition` row.  `has_title` /
`has_author` are the truthiness of the (re)calculated title, and whether
the calculated author is neither NULL nor `Edition.UNKNOWN_AUTHOR`;
`permanent_work_id` is the (re)calculated pwid — all three are
deterministic functions of the edition data, which no clustering
operation changes, so they are stored precomputed. -/
structure CEdition where
  eid : Nat
  permanent_work_id : Option String := none
  medium : String := BOOK_MEDIUM
  has_title : Bool := true
  has_author : Bool := true
deriving DecidableEq, Repr

/-- The clustering-relevant fields of a `LicensePool` row.
`presentation_edition` is the pool's presentation edition; it is
recomputed by `set_presentation_edition` from the fixed edition data and
therefore constant during clustering. -/
structure CPool where
  pid : Nat
  open_access : Bool
  has_identifier : Bool := true
  presentation_edition : Option Nat := none
  work : Option Nat := none
deriving DecidableEq, Repr

/-- The clustering-relevant fields of a `Work` row. -/
structure CWork where
  wid : Nat
  presentation_edition : Option Nat := none
deriving DecidableEq, Repr

/-- The clustering state.  `workGenres` are `(work_id, row id)` WorkGenre
rows; `coverageRecords` are `(work_id, row id)` WorkCoverageRecord rows
(`work_id = none` once orphaned). -/
structure ClusterState where
  pools : List CPool
  editions : List CEdition
  works : List CWork
  workGenres : List (Nat × Nat) := []
  coverageRecords : List (Option Nat × Nat) := []
  nextWorkId : Nat
deriving DecidableEq, Repr

namespace ClusterState

def findPool (s : ClusterState) (pid : Nat) : Option CPool :=
  s.pools.find? (fun p => p.pid = pid)

def findEdition (s : ClusterState) (eid : Nat) : Option CEdition :=
  s.editions.find? (fun e => e.eid = eid)

def findWork (s : ClusterState) (wid : Nat) : Option CWork :=
  s.works.find? (fun w => w.wid = wid)

/-- `pool.work = w` (the FK write; the `Work.license_pools` backref is
derived). -/
def setPoolWork (s : ClusterState) (pid : Nat) (w : Option Nat) :
    ClusterState :=
  {s with pools := s.pools.map (fun p =>
    if p.pid = pid then {p with work := w} else p)}

/-- `work.presentation_edition = e` (the FK write on the Work row). -/
def setWorkPE (s : ClusterState) (wid : Nat) (e : Option Nat) :
    ClusterState :=
  {s with works := s.works.map (fun w =>
    if w.wid = wid then {w with presentation_edition := e} else w)}

/-- `work.license_pools`, in table order. -/
def poolsOfWork (s : ClusterState) (wid : Nat) : List CPool :=
  s.pools.filter (fun p => p.work = some wid)

/-- `edition.work` (model.py line 2248): the Work whose presentation
edition this Edition is (backref of `Work.presentation_edition`,
`uselist=False`). -/
def editionWorkOf (s : ClusterState) (eid : Nat) : Option Nat :=
  (s.works.find? (fun w => w.presentation_edition = some eid)).map CWork.wid

/-- `edition.work = None`: unlink the Work currently holding this Edition
as its presentation edition, if any. -/
def clearEditionWork (s : ClusterState) (eid : Nat) : ClusterState :=
  match s.works.find? (fun w => w.presentation_edition = some eid) with
  | some w => s.setWorkPE w.wid none
  | none => s

/-- `edition.is_presentation_for` (model.py lines 2254-2256): the
LicensePool whose presentation edition this Edition is. -/
def isPresentationFor (s : ClusterState) (eid : Nat) : Option Nat :=
  (s.pools.find? (fun p => p.presentation_edition = some eid)).map CPool.pid

/-- The query of `Work.open_access_for_permanent_work_id` (model.py lines
3211-3218): all LicensePools joined to their presentation Editions, where
the Edition has the given permanent work ID and medium and the pool is
open-access. -/
def matchingPools (s : ClusterState) (pwid : String) (medium : String) :
    List CPool :=
  s.pools.filter (fun p =>
    p.open_access &&
      match p.presentation_edition.bind s.findEdition with
      | some e => decide (e.permanent_work_id = some pwid)
          && decide (e.medium = medium)
      | none => false)

/-- `Work.pwids` (model.py lines 3329-3341): the set of permanent work
IDs of the Work's pools' presentation editions. -/
def pwids (s : ClusterState) (wid : Nat) : Finset String :=
  ((s.poolsOfWork wid).filterMap (fun p =>
    (p.presentation_edition.bind s.findEdition).bind
      CEdition.permanent_work_id)).toFinset

/-- `Work()`: a fresh Work row. -/
def addWork (s : ClusterState) : ClusterState × Nat :=
  ({s with works := s.works ++ [{wid := s.nextWorkId}],
           nextWorkId := s.nextWorkId + 1}, s.nextWorkId)

/-- `_db.delete(work)`: the Work row goes away; its WorkGenre rows are
deleted by the `all, delete-orphan` cascade; its WorkCoverageRecords and
any LicensePools still pointing at it have their `work_id` nulled at the
flush; a Work holding this Edition-pointer structure has no other
inbound FKs we track. -/
def deleteWork (s : ClusterState) (wid : Nat) : ClusterState :=
  {s with works := s.works.filter (fun w => w.wid ≠ wid),
          workGenres := s.workGenres.filter (fun g => g.1 ≠ wid),
          coverageRecords := s.coverageRecords.map (fun c =>
            if c.1 = some wid then (none, c.2) else c),
          pools := s.pools.map (fun p =>
            if p.work = some wid then {p with work := none} else p)}

end ClusterState

/-- The `for pool in self.license_pools: other_work.license_pools.append(pool)`
loop of `Work.merge_into` (model.py lines 3369-3370).  The loop iterates
the live instrumented collection by index while each `append` — through
the `work` backref — removes that pool from the collection being
iterated, so the iteration skips every other element (the classic
mutate-while-iterating behaviour of a Python list).  `i` is the
iterator's index; the fuel only makes the recursion structural and
`s.pools.length + 1` always suffices. -/
def mergeMoveLoop (selfW otherW : Nat) :
    Nat → Nat → ClusterState → ClusterState
  | 0, _, s => s
  | fuel + 1, i, s =>
    match (s.poolsOfWork selfW)[i]? with
    | some p => mergeMoveLoop selfW otherW fuel (i + 1)
        (s.setPoolWork p.pid (some otherW))
    | none => s

/-- `Work.merge_into` (model.py lines 3343-3381), threading the state and
returning the error message when the source raises (the spec's
`ClusterConsistencyError` is the `ValueError` raised here).  Both checks
precede every mutation, so an error leaves the returned state exactly as
it was passed in. -/
def merge_into (s : ClusterState) (selfW otherW : Nat) :
    ClusterState × Option String :=
  -- Neither the source nor the destination work may have any
  -- non-open-access LicensePools.
  if ((s.poolsOfWork selfW) ++ (s.poolsOfWork otherW)).any
      (fun p => !p.open_access) then
    (s, some "would put an open-access LicensePool into the same work as a non-open-access LicensePool")
  else if s.pwids selfW ≠ s.pwids otherW then
    (s, some "permanent work IDs don't match")
  else
    -- Every LicensePool associated with this work becomes associated
    -- instead with the other work (with the skip-every-other iteration
    -- of the live collection).
    let s := mergeMoveLoop selfW otherW (s.pools.length + 1) 0 s
    -- All WorkGenres and WorkCoverageRecords for this Work are deleted.
    let s := {s with
      workGenres := s.workGenres.filter (fun g => g.1 ≠ selfW),
      coverageRecords := s.coverageRecords.filter (fun c => c.1 ≠ some selfW)}
    -- _db.delete(self); other_work.calculate_presentation() has no
    -- clustering effect.
    (s.deleteWork selfW, none)

/-- The result of a clustering operation: the new state together with the
operation's `(work, is_new)` result, or `raised` when the source raises
(the exception propagates to the operation's caller), or `nofuel` when
the structural fuel runs out (never with enough fuel). -/
inductive CRes where
  | ok (s : ClusterState) (work : Option Nat) (is_new : Bool)
  | raised
  | nofuel
deriving DecidableEq, Repr

/-- Sequencing on `CRes`: feed the state of a successful step to the
next, propagate `raised` / `nofuel`. -/
def CRes.andThen (r : CRes) (f : ClusterState → Option Nat → Bool → CRes) :
    CRes :=
  match r with
  | ok s w n => f s w n
  | raised => raised
  | nofuel => nofuel

/-- The three mutually recursive clustering operations, dispatched by a
tag so that the recursion is structural in the fuel (and so computable by
the kernel): `LicensePool.calculate_work`,
`Work.open_access_for_permanent_work_id` and
`Work.make_exclusive_open_access_for_permanent_work_id`. -/
inductive COp where
  | calcWork (pid : Nat) (even_if_no_author : Bool)
  | oaForPwid (pwid : String) (medium : String)
  | makeExclusive (wid : Nat) (pwid : String) (medium : String)
deriving DecidableEq, Repr

/-- The Counter-building loop of `Work.open_access_for_permanent_work_id`
(model.py lines 3227-3230): tally, for each Work some matching pool
belongs to, how many LicensePools (of any kind) that Work has, counting
each Work once.  (The second iteration over `qu` re-runs the query; the
state has not changed since `licensepools = qu.all()`, so the same rows
come back.) -/
def licensepoolsForWork (s : ClusterState) (licensepools : List CPool) :
    List (Nat × Nat) :=
  licensepools.foldl
    (fun counter lp =>
      match lp.work with
      | some w =>
        if counter.any (fun c => c.1 = w) then counter
        else counter ++ [(w, (s.poolsOfWork w).length)]
      | none => counter)
    []

/-- `licensepools_for_work.most_common(1)[0]` (model.py line 3239): a
Work with the most LicensePools (first seen on a tie). -/
def mostCommonWork (counter : List (Nat × Nat)) : Option Nat :=
  (counter.foldl
    (fun best c =>
      match best with
      | none => some c
      | some b => if c.2 > b.2 then some c else some b)
    none).map Prod.fst

/-- The clustering engine: `LicensePool.calculate_work` (model.py lines
5971-6137), `Work.open_access_for_permanent_work_id` (lines 3196-3271)
and `Work.make_exclusive_open_access_for_permanent_work_id` (lines
3273-3326), one tagged interpreter so the mutual recursion is structural
in the fuel.  Every recursive call runs at `fuel`; with enough fuel the
result is never `nofuel`. -/
def clusterRun : Nat → COp → ClusterState → CRes
  | 0, _, _ => CRes.nofuel
  | fuel + 1, COp.calcWork pid even_if_no_author, s₀ =>
    match s₀.findPool pid with
    | none => CRes.raised
    | some p =>
      -- if not self.identifier: self.work = None; return None, False (5985-5988)
      if !p.has_identifier then
        CRes.ok (s₀.setPoolWork pid none) none false
      else
        -- self.set_presentation_edition(None) (5992): the presentation
        -- edition is recomputed to the same Edition; its courtesy call
        -- (5760-5763) gives the pool's Work a presentation edition if
        -- the Work has none (the accompanying backref write re-affirms
        -- this very pool's membership).
        let s :=
          match p.work, p.presentation_edition with
          | some w, some e =>
            match s₀.findWork w with
            | some cw =>
              if cw.presentation_edition = none then s₀.setWorkPE w (some e)
              else s₀
            | none => s₀
          | _, _ => s₀
        match p.presentation_edition with
        | none =>
          -- "NO EDITION ... cowardly refusing to create work" (5996-6005).
          -- (A pool with no Editions at all instead gets an empty
          -- composite edition whose title is NULL and takes the no-title
          -- branch below, with the same outcome.)
          CRes.ok (s.setPoolWork pid none) none false
        | some e =>
          match s.findEdition e with
          | none => CRes.raised
          | some ed =>
            -- if presentation_edition.is_presentation_for != self: raise (6007-6009)
            if s.isPresentationFor e ≠ some pid then CRes.raised
            else if !ed.has_title then
              -- (6014-6023): no title, no Work
              CRes.ok (s.setPoolWork pid none) none false
            else if s.editionWorkOf e = none ∧ ed.has_author = false
                ∧ even_if_no_author = false then
              -- (6025-6037): no author, caller did not allow author-less Works
              CRes.ok (s.setPoolWork pid none) none false
            else
              -- presentation_edition.calculate_permanent_work_id() (6039):
              -- the pwid is precomputed in the edition row
              let afterOA : CRes :=
                match ed.permanent_work_id with
                | some pwid =>
                  if p.open_access then
                    -- (6045-6070)
                    (clusterRun fuel (COp.oaForPwid pwid ed.medium) s).andThen
                      (fun s work is_new =>
                        match work with
                        | none => CRes.raised
                          -- work.make_exclusive_... on None would be an
                          -- AttributeError; unreachable: the query sees
                          -- `self` itself, so a Work always comes back
                        | some w =>
                          (clusterRun fuel
                              (COp.makeExclusive w pwid ed.medium) s).andThen
                            (fun s _ _ =>
                              -- self.work = work (6069)
                              CRes.ok (s.setPoolWork pid (some w)) (some w) is_new))
                  else CRes.ok s none false
                | none => CRes.ok s none false
              afterOA.andThen (fun s _ is_new =>
                -- 6072-6080: if self.work: work = self.work
                -- elif presentation_edition.work: work = pe.work; self.work = work
                let selfWork := (s.findPool pid).bind CPool.work
                let swPair : ClusterState × Option Nat :=
                  match selfWork with
                  | some w => (s, some w)
                  | none =>
                    match s.editionWorkOf e with
                    | some w => (s.setPoolWork pid (some w), some w)
                    | none => (s, none)
                let s := swPair.1
                match swPair.2 with
                | some w =>
                  -- sanity check 6082-6101: every other pool is kicked out
                  -- and re-resolved unless both it and self are open-access
                  let snapshot := s.poolsOfWork w
                  (snapshot.foldl
                    (fun acc q =>
                      acc.andThen (fun s _ _ =>
                        if q.pid = pid then CRes.ok s none false
                        else if !(p.open_access && q.open_access) then
                          (clusterRun fuel (COp.calcWork q.pid false)
                              (s.setPoolWork q.pid none)).andThen
                            (fun s _ _ => CRes.ok s none false)
                        else CRes.ok s none false))
                    (CRes.ok s none false)).andThen
                    (fun s _ _ =>
                      -- 6115-6119: if not self in work.license_pools: append
                      let s :=
                        if (s.poolsOfWork w).any (fun q => q.pid = pid) then s
                        else s.setPoolWork pid (some w)
                      -- work.calculate_presentation() (6131): no clustering effect
                      CRes.ok s (some w) is_new)
                | none =>
                  -- 6103-6113: no better choice than a brand new Work
                  let sw := s.addWork
                  let s := sw.1
                  let w := sw.2
                  let s :=
                    if (s.poolsOfWork w).any (fun q => q.pid = pid) then s
                    else s.setPoolWork pid (some w)
                  CRes.ok s (some w) true)
  | fuel + 1, COp.oaForPwid pwid medium, s₀ =>
    -- (3196-3271)
    let licensepools := s₀.matchingPools pwid medium
    if licensepools.isEmpty then
      -- There are no LicensePools for this PWID. Do nothing. (3221-3223)
      CRes.ok s₀ none false
    else
      let counter := licensepoolsForWork s₀ licensepools
      match mostCommonWork counter with
      | none =>
        -- None of these LicensePools have a Work. Create a new one. (3233-3236)
        let sw := s₀.addWork
        -- 3266-3270: assign it to every LicensePool whose presentation
        -- Edition has that permanent work ID
        let s := licensepools.foldl
          (fun s lp => ClusterState.setPoolWork s lp.pid (some sw.2)) sw.1
        CRes.ok s (some sw.2) true
      | some w =>
        -- Pick the Work with the most LicensePools. (3238-3239)
        let afterMerges : CRes :=
          if counter.length > 1 then
            -- 3242-3264: first make the survivor exclusive, then make each
            -- other Work exclusive and merge it in
            (clusterRun fuel (COp.makeExclusive w pwid medium) s₀).andThen
              (fun s _ _ =>
                counter.foldl
                  (fun acc c =>
                    acc.andThen (fun s _ _ =>
                      if c.1 = w then CRes.ok s none false
                      else
                        (clusterRun fuel
                            (COp.makeExclusive c.1 pwid medium) s).andThen
                          (fun s _ _ =>
                            match merge_into s c.1 w with
                            | (_, some _) => CRes.raised
                            | (s, none) => CRes.ok s none false)))
                  (CRes.ok s none false))
          else CRes.ok s₀ none false
        afterMerges.andThen (fun s _ _ =>
          let s := licensepools.foldl
            (fun s lp => ClusterState.setPoolWork s lp.pid (some w)) s
          CRes.ok s (some w) false)
  | fuel + 1, COp.makeExclusive wid pwid medium, s₀ =>
    -- (3273-3326)
    let snapshot := s₀.poolsOfWork wid
    (snapshot.foldl
      (fun acc pool =>
        acc.andThen (fun s _ _ =>
          if !pool.open_access then
            -- 3289-3294: a non-open-access pool needs its own Work
            let s := s.setPoolWork pool.pid none
            match pool.presentation_edition with
            | none => CRes.raised
              -- pool.presentation_edition.work = None on a NULL
              -- presentation edition: AttributeError
            | some e =>
              (clusterRun fuel (COp.calcWork pool.pid false)
                  (s.clearEditionWork e)).andThen
                (fun s _ _ =>
                  -- if other_work and is_new:
                  --   other_work.calculate_presentation() — no clustering
                  -- effect
                  CRes.ok s none false)
          else
            match pool.presentation_edition with
            | none =>
              -- 3295-3302: no presentation edition, no Work
              CRes.ok (s.setPoolWork pool.pid none) none false
            | some e =>
              match s.findEdition e with
              | none => CRes.raised
              | some ed =>
                match ed.permanent_work_id with
                | none =>
                  -- 3306-3315: no PWID, no Work
                  CRes.ok ((s.clearEditionWork e).setPoolWork pool.pid none)
                    none false
                | some this_pwid =>
                  if this_pwid ≠ pwid ∨ ed.medium ≠ medium then
                    -- 3316-3324: wrong pwid or medium: send the pool to
                    -- its own Work
                    let s := (s.setPoolWork pool.pid none).clearEditionWork e
                    (clusterRun fuel
                        (COp.oaForPwid this_pwid ed.medium) s).andThen
                      (fun s _ _ => CRes.ok s none false)
                  else CRes.ok s none false))
      (CRes.ok s₀ none false))

/-- `LicensePool.calculate_work` (model.py lines 5971-6137). -/
def calculate_work (fuel : Nat) (s : ClusterState) (pid : Nat)
    (even_if_no_author : Bool := false) : CRes :=
  clusterRun fuel (COp.calcWork pid even_if_no_author) s

/-- `Work.open_access_for_permanent_work_id` (model.py lines 3196-3271). -/
def open_access_for_permanent_work_id (fuel : Nat) (s : ClusterState)
    (pwid : String) (medium : String) : CRes :=
  clusterRun fuel (COp.oaForPwid pwid medium) s

/-- `Work.make_exclusive_open_access_for_permanent_work_id` (model.py
lines 3273-3326). -/
def make_exclusive_open_access_for_permanent_work_id (fuel : Nat)
    (s : ClusterState) (wid : Nat) (pwid : String) (medium : String) : CRes :=
  clusterRun fuel (COp.makeExclusive wid pwid medium) s

/-- The state component of a clustering result. -/
def cresState (r : CRes) : Option ClusterState :=
  match r with
  | CRes.ok s _ _ => some s
  | _ => none

/-- Invariant I3 as a boolean check on the clustering state: every
non-open-access pool that has a Work is the only pool of that Work. -/
def commercialPoolsAlone (s : ClusterState) : Bool :=
  s.pools.all (fun p =>
    p.open_access ||
      match p.work with
      | some w => decide (s.poolsOfWork w = [p])
      | none => true)

/-- The C3 failing input: Work 1 holds a commercial pool (pid 1) together
with two open-access pools (pids 2, 3), all of pwid "x" — the
inconsistent grouping `calculate_work`'s sanity check is there to
repair. -/
def c3State : ClusterState :=
  { pools :=
      [ {pid := 1, open_access := false, presentation_edition := some 10, work := some 1},
        {pid := 2, open_access := true, presentation_edition := some 11, work := some 1},
        {pid := 3, open_access := true, presentation_edition := some 12, work := some 1} ],
    editions :=
      [ {eid := 10, permanent_work_id := some "x"},
        {eid := 11, permanent_work_id := some "x"},
        {eid := 12, permanent_work_id := some "x"} ],
    works := [ {wid := 1, presentation_edition := some 11} ],
    nextWorkId := 2 }

/-- The C4 failing input: pwid "x" is claimed by two Works — Work 1 with
one matching pool (pid 1) and Work 2 with one matching pool (pid 2) plus
two off-pwid ("y") open-access pools (pids 3, 4). -/
def c4State : ClusterState :=
  { pools :=
      [ {pid := 1, open_access := true, presentation_edition := some 10, work := some 1},
        {pid := 2, open_access := true, presentation_edition := some 11, work := some 2},
        {pid := 3, open_access := true, presentation_edition := some 12, work := some 2},
        {pid := 4, open_access := true, presentation_edition := some 13, work := some 2} ],
    editions :=
      [ {eid := 10, permanent_work_id := some "x"},
        {eid := 11, permanent_work_id := some "x"},
        {eid := 12, permanent_work_id := some "y"},
        {eid := 13, permanent_work_id := some "y"} ],
    works := [ {wid := 1, presentation_edition := some 10},
               {wid := 2, presentation_edition := some 11} ],
    nextWorkId := 3 }

/-- The C2 witness state: Work 1's only pool carries pwid "x", Work 2's
only pool carries pwid "y"; both pools are open-access. -/
def c2State : ClusterState :=
  { pools :=
      [ {pid := 1, open_access := true, presentation_edition := some 10, work := some 1},
        {pid := 2, open_access := true, presentation_edition := some 11, work := some 2} ],
    editions :=
      [ {eid := 10, permanent_work_id := some "x"},
        {eid := 11, permanent_work_id := some "y"} ],
    works := [ {wid := 1, presentation_edition := some 10},
               {wid := 2, presentation_edition := some 11} ],
    workGenres := [(1, 100), (2, 101)],
    coverageRecords := [(some 1, 200), (some 2, 201)],
    nextWorkId := 3 }


/-! ## The Presentation Recompute Pipeline (`Work.calculate_presentation`)

The pipeline re-derives a Work's displayable attributes from data that
does not change while it runs (editions, classifications, resources,
measurements).  Those external computations are pure functions of that
fixed data; they are abstracted as the fields of `PresFacts`:

* `choosePoolPE` — the presentation Edition
  `LicensePool.set_presentation_edition` (model.py 5711-5758) derives for
  a pool: the pool's single Edition, or the composite built by the
  metadata layer — either way a deterministic function of the fixed
  edition data.
* `editionDerived` — the tuple of fields
  `Edition.calculate_presentation` (model.py 2774-2833) computes and
  stores on an edition (author, sort author/title, pwid, open-access URL,
  cover), abstracted to one value; the method stores it and reports
  whether it differed from what was stored.
* `classifierGenres`, `classifierFiction`, `classifierAudience`,
  `classifierTargetAge` — `WorkClassifier.classify`'s output over the
  fixed classification rows (the spec treats the classifier as a
  black-box service).
* `summaryChoice` — `Identifier.evaluate_summary_quality`'s winner, as
  the chosen Resource id and its unicode content (`none` when no summary
  is chosen; a winner without a representation contributes content "").
* `overallQuality` — `Measurement.overall_quality` over the gathered
  measurements, as a function of the default baseline.
-/

/-- `PresentationCalculationPolicy` (model.py lines 2911-2942). -/
structure PresentationCalculationPolicy where
  choose_edition : Bool := true
  set_edition_metadata : Bool := true
  classify : Bool := true
  choose_summary : Bool := true
  calculate_quality : Bool := true
  choose_cover : Bool := true
  regenerate_opds_entries : Bool := false
  update_search_index : Bool := false
deriving DecidableEq, Repr

/-- The fixed external data of one presentation recompute, as pure
functions (see the section comment). -/
structure PresFacts where
  choosePoolPE : Nat → Nat
  editionDerived : Nat → Nat
  classifierGenres : List (Nat × ℚ)
  classifierFiction : Option Bool
  classifierAudience : Option String
  classifierTargetAge : Option (Option Int × Option Int)
  summaryChoice : Option (Nat × String)
  overallQuality : ℚ → ℚ

/-- The Work state `calculate_presentation` reads and writes:
`pools` are the Work's LicensePools (the `superceded` flags and
presentation-edition pointers live on them), `editionState` maps an
edition id to the derived-field tuple currently stored on that edition,
`work_genres` maps genre ids to affinities, and `last_update_time` is
the change timestamp. -/
structure PWork where
  presentation_edition : Option Nat := none
  pools : List LicensePool := []
  editionState : List (Nat × Nat) := []
  summary : Option Nat := none
  summary_text : String := ""
  quality : Option ℚ := none
  fiction : Option Bool := none
  audience : Option String := none
  target_age : Option (Option Int × Option Int) := none
  work_genres : List (Nat × ℚ) := []
  last_update_time : Nat := 0
deriving DecidableEq, Repr

/-- Association-list lookup for the stored edition-derived tuples. -/
def lookupEdition (es : List (Nat × Nat)) (k : Nat) : Option Nat :=
  (es.find? (fun e => e.1 = k)).map Prod.snd

/-- Association-list store for the edition-derived tuples (replace the
first entry with the key, else append). -/
def upsertEdition : List (Nat × Nat) → Nat → Nat → List (Nat × Nat)
  | [], k, v => [(k, v)]
  | (k', v') :: rest, k, v =>
    if k' = k then (k, v) :: rest else (k', v') :: upsertEdition rest k v

/-- `numericrange_to_tuple`, as used in the target-age comparison of
`assign_genres` (model.py line 3907): a NULL range compares as a pair of
NULL bounds. -/
def numericrange_to_tuple (r : Option (Option Int × Option Int)) :
    Option Int × Option Int :=
  match r with
  | none => (none, none)
  | some t => t

/-- `round(x, 2)` as used in the affinity comparison of
`assign_genres_from_weights` (model.py line 3933), on the common scale. -/
def round2 (q : ℚ) : Int :=
  round (q * 100)

/-- The accumulator of the `for pool in self.license_pools` loop of
`Work.calculate_presentation_edition` (model.py lines 3532-3560): the
Work's live presentation-edition pointer (the pools' courtesy calls may
set it), the stored edition-derived tuples, `edition_metadata_changed`,
and `new_presentation_edition`. -/
structure CpeAcc where
  wpe : Option Nat
  editionState : List (Nat × Nat)
  metaChanged : Bool
  newPE : Option Nat
deriving DecidableEq, Repr

/-- The pool loop of `Work.calculate_presentation_edition` (model.py
lines 3532-3560).  `old` is `old_presentation_edition` (line 3529).  A
superceded or suppressed pool is skipped (3536-3537); otherwise
`pool.set_presentation_edition(policy)` (3541) re-derives the pool's
presentation Edition and that Edition's own derived fields, reporting
whether either differed (5711-5768, with the courtesy call of 5760-5763
giving the Work a presentation edition if it has none), and lines
3546-3560 accumulate the first available presentation edition, preferring
the existing one while it remains an option. -/
def cpeLoop (facts : PresFacts) (old : Option Nat) :
    List LicensePool → CpeAcc → List LicensePool × CpeAcc
  | [], acc => ([], acc)
  | pool :: rest, acc =>
    if pool.superceded || pool.suppressed then
      let r := cpeLoop facts old rest acc
      (pool :: r.1, r.2)
    else
      -- pool.set_presentation_edition(policy):
      let newPE := facts.choosePoolPE pool.pid
      let oldPE := pool.presentation_edition
      let oldDerived := lookupEdition acc.editionState newPE
      let newDerived := facts.editionDerived newPE
      let poolChanged := decide ((some newPE : Option Nat) ≠ oldPE)
        || decide (oldDerived ≠ some newDerived)
      let pool' := {pool with presentation_edition := some newPE}
      let es' := upsertEdition acc.editionState newPE newDerived
      -- the courtesy call (5760-5763); the accompanying
      -- `is_presentation_for.work = self` re-affirms this very pool's
      -- membership
      let wpe' := if acc.wpe = none then some newPE else acc.wpe
      -- 3546-3560
      let potential : Option Nat := some newPE
      let np' := if acc.newPE = none ∨ (potential = old ∧ old ≠ none) then
          potential
        else acc.newPE
      let r := cpeLoop facts old rest
        { wpe := wpe', editionState := es',
          metaChanged := acc.metaChanged || poolChanged, newPE := np' }
      (pool' :: r.1, r.2)

/-- `Work.calculate_presentation_edition` (model.py lines 3508-3576). -/
def calculate_presentation_edition (facts : PresFacts)
    (policy : PresentationCalculationPolicy) (w : PWork) : PWork × Bool :=
  if !policy.choose_edition then (w, false)
  else
    -- 3526
    let w := {w with pools := mark_licensepools_as_superceded w.pools}
    -- 3529
    let old := w.presentation_edition
    let r := cpeLoop facts old w.pools
      { wpe := w.presentation_edition, editionState := w.editionState,
        metaChanged := false, newPE := none }
    let w := {w with pools := r.1,
                     editionState := r.2.editionState,
                     presentation_edition := r.2.wpe}
    -- 3563-3565 (Work.set_presentation_edition; the chosen edition is a
    -- member pool's, so the backref write keeps membership as is)
    let w := if w.presentation_edition ≠ r.2.newPE ∧ r.2.newPE ≠ none then
        {w with presentation_edition := r.2.newPE}
      else w
    (w, r.2.metaChanged || decide (old ≠ w.presentation_edition))

/-- `Work.set_summary` (model.py lines 3383-3392): store the chosen
summary resource and its content ("" when there is none). -/
def set_summary (choice : Option (Nat × String)) (w : PWork) : PWork :=
  match choice with
  | some c => {w with summary := some c.1, summary_text := c.2}
  | none => {w with summary := none, summary_text := ""}

/-- The accumulator of the genre-assignment loop of
`assign_genres_from_weights` (model.py lines 3922-3936): remaining
current rows (`by_genre`), rows built so far (`workgenres`), `changed`. -/
structure AgfwAcc where
  by_genre : List (Nat × ℚ)
  workgenres : List (Nat × ℚ)
  changed : Bool
deriving DecidableEq, Repr

/-- The `for g, score in genre_weights.items()` loop of
`assign_genres_from_weights` (model.py lines 3922-3936): each genre's
affinity is its score over the total; a genre already assigned changes
only if the affinity moved at the second decimal; a new genre is
created (changed). -/
def agfwLoop (total : ℚ) : List (Nat × ℚ) → AgfwAcc → AgfwAcc
  | [], acc => acc
  | (g, score) :: rest, acc =>
    let affinity := score / total
    match acc.by_genre.find? (fun c => c.1 = g) with
    | some c =>
      agfwLoop total rest
        { by_genre := acc.by_genre.eraseP (fun c => c.1 = g),
          workgenres := acc.workgenres ++ [(g, affinity)],
          changed := acc.changed || decide (round2 c.2 ≠ round2 affinity) }
    | none =>
      agfwLoop total rest
        { by_genre := acc.by_genre,
          workgenres := acc.workgenres ++ [(g, affinity)],
          changed := true }

/-- `Work.assign_genres_from_weights` (model.py lines 3912-3947):
`none` models the `ZeroDivisionError` when the weights are nonempty but
sum to zero (the float division at line 3923). -/
def assign_genres_from_weights (genre_weights : List (Nat × ℚ))
    (current : List (Nat × ℚ)) : Option (List (Nat × ℚ) × Bool) :=
  let total := (genre_weights.map Prod.snd).sum
  if genre_weights ≠ [] ∧ total = 0 then none
  else
    let acc := agfwLoop total genre_weights
      { by_genre := current, workgenres := [], changed := false }
    -- 3938-3942: leftover rows are genres the Work no longer has; delete
    some (acc.workgenres, acc.changed || decide (acc.by_genre ≠ []))

/-- `Work.assign_genres` (model.py lines 3876-3910). -/
def assign_genres (facts : PresFacts) (w : PWork) :
    Option (PWork × Bool) :=
  let old_fiction := w.fiction
  let old_audience := w.audience
  let old_target_age := w.target_age
  let w := {w with fiction := facts.classifierFiction,
                   audience := facts.classifierAudience,
                   target_age := facts.classifierTargetAge}
  match assign_genres_from_weights facts.classifierGenres w.work_genres with
  | none => none
  | some r =>
    let w := {w with work_genres := r.1}
    some (w, r.2 || decide (old_fiction ≠ w.fiction)
      || decide (old_audience ≠ w.audience)
      || decide (numericrange_to_tuple old_target_age ≠
          numericrange_to_tuple w.target_age))

/-- `Work.calculate_presentation` (model.py lines 3579-3701).  `now` is
`datetime.datetime.utcnow()`.  `none` models the two exceptions the body
can raise: the `ZeroDivisionError` of `assign_genres_from_weights` and
the `TypeError` of `float(None)` at line 3674 when a quality side of the
comparison is NULL — the `changed` expression at 3669-3675 is a Python
`or` chain, so `float(quality)` is evaluated only when every earlier
disjunct is falsy; if an edition, classification, summary or
summary-text change short-circuits the chain, a NULL quality never
raises.  The summary text is a Unicode column, so the `decode` at lines
3661-3667 is the identity.  The OPDS / search-index regeneration at
3683-3690 acts on external artifacts only. -/
def calculate_presentation (facts : PresFacts)
    (policy : PresentationCalculationPolicy) (now : Nat) (w : PWork) :
    Option (PWork × Bool) :=
  let e := calculate_presentation_edition facts policy w
  let w := e.1
  let edition_changed := e.2
  -- 3604-3606
  let summary := w.summary
  let summary_text := w.summary_text
  let quality := w.quality
  -- 3611-3617
  let sources := licensedDataSources w.pools
  -- 3628-3632
  match (if policy.classify then assign_genres facts w
    else some (w, false)) with
  | none => none
  | some c =>
    let w := c.1
    let classification_changed := c.2
    -- 3634-3640
    let w := if policy.choose_summary then set_summary facts.summaryChoice w
      else w
    -- 3642-3659
    let w := if policy.calculate_quality then
        {w with quality := some (facts.overallQuality
          (calculatePresentationDefaultQuality sources))}
      else w
    -- 3661-3667
    let new_summary_text := w.summary_text
    -- 3669-3675: the `or` chain short-circuits before `float(quality)`
    -- whenever an earlier disjunct is true
    if edition_changed || classification_changed
        || decide (summary ≠ w.summary)
        || decide (summary_text ≠ new_summary_text) then
      -- 3677-3681
      some ({w with last_update_time := now}, true)
    else
      match quality, w.quality with
      | some qOld, some qNew =>
        let changed := decide (qOld ≠ qNew)
        -- 3677-3681
        let w := if changed then {w with last_update_time := now} else w
        some (w, changed)
      | _, _ => none

/-- A pool with its `superceded` flag blanked: what
`mark_licensepools_as_superceded` leaves untouched. -/
def eraseSup (p : LicensePool) : LicensePool :=
  {p with superceded := false}

/-- A pool with its `superceded` flag and presentation-edition pointer
blanked: the fields `mark_licensepools_as_superceded` reads are exactly
the fields this keeps. -/
def markCore (p : LicensePool) : LicensePool :=
  {p with superceded := false, presentation_edition := none}

/-- The external facts of the concrete C5 idempotence run. -/
def c5Facts : PresFacts :=
  { choosePoolPE := fun pid => pid + 10,
    editionDerived := fun e => e * 3,
    classifierGenres := [(1, 6), (2, 2)],
    classifierFiction := some true,
    classifierAudience := some "Adult",
    classifierTargetAge := some (some 18, none),
    summaryChoice := some (7, "A fine book."),
    overallQuality := fun d => d + 1/2 }

/-- The default presentation-calculation policy of the C5 run. -/
def c5Policy : PresentationCalculationPolicy := {}

/-- The open-access pool of the C5 Work. -/
def c5Pool : LicensePool :=
  { pid := 1, data_source_name := GUTENBERG, open_access := true }

/-- The C5 Work before its first presentation recompute. -/
def c5W0 : PWork :=
  { pools := [c5Pool], quality := some (1/10) }

/-- The C5 Work as the first recompute leaves it. -/
def c5W1 : PWork :=
  { presentation_edition := some 11,
    pools := [{ pid := 1, data_source_name := GUTENBERG, open_access := true,
                presentation_edition := some 11 }],
    editionState := [(11, 33)],
    summary := some 7,
    summary_text := "A fine book.",
    quality := some (1/2),
    fiction := some true,
    audience := some "Adult",
    target_age := some (some 18, none),
    work_genres := [(1, 3/4), (2, 1/4)],
    last_update_time := 111 }

/-- A policy with quality recomputation turned off, under which a NULL
quality survives the first recompute. -/
def c5PolicyNoQuality : PresentationCalculationPolicy :=
  { calculate_quality := false }

/-- A fresh C5 Work with NULL quality. -/
def c5NoQualityW0 : PWork :=
  { pools := [c5Pool] }

/-- The NULL-quality C5 Work as the first recompute leaves it: the first
run succeeds because the `or` chain short-circuits on the edition and
summary changes, but the quality stays NULL. -/
def c5NoQualityW1 : PWork :=
  { presentation_edition := some 11,
    pools := [{ pid := 1, data_source_name := GUTENBERG, open_access := true,
                presentation_edition := some 11 }],
    editionState := [(11, 33)],
    summary := some 7,
    summary_text := "A fine book.",
    quality := none,
    fiction := some true,
    audience := some "Adult",
    target_age := some (some 18, none),
    work_genres := [(1, 3/4), (2, 1/4)],
    last_update_time := 111 }

/-- The lockstep relation for the flags-congruence of the superceded
marking: same cores, same flags so far, same champion. -/
def MarkRel (a b : List LicensePool × Option Nat) : Prop :=
  a.1.map markCore = b.1.map markCore
  ∧ a.1.map LicensePool.superceded = b.1.map LicensePool.superceded
  ∧ a.2 = b.2

/-- A pool with its presentation-edition pointer blanked: everything
`set_presentation_edition` leaves alone. -/
def peErase (p : LicensePool) : LicensePool :=
  {p with presentation_edition := none}

/-- The skip test of the `calculate_presentation_edition` pool loop
(model.py 3536-3537). -/
def skipPool (p : LicensePool) : Bool :=
  p.superceded || p.suppressed

/-- The accumulator update of one processed (non-skipped) pool of the
`calculate_presentation_edition` loop. -/
def cpeGoAcc (facts : PresFacts) (old : Option Nat) (p : LicensePool)
    (acc : CpeAcc) : CpeAcc :=
  let newPE := facts.choosePoolPE p.pid
  { wpe := if acc.wpe = none then some newPE else acc.wpe,
    editionState := upsertEdition acc.editionState newPE
      (facts.editionDerived newPE),
    metaChanged := acc.metaChanged ||
      (decide ((some newPE : Option Nat) ≠ p.presentation_edition)
        || decide (lookupEdition acc.editionState newPE ≠
            some (facts.editionDerived newPE))),
    newPE := if acc.newPE = none ∨ ((some newPE : Option Nat) = old ∧ old ≠ none)
      then some newPE else acc.newPE }

/-- A pool the loop has already fully processed against the stored
edition tuples `es`: skipped, or carrying its derived presentation
edition whose stored tuple is current. -/
def poolDone (facts : PresFacts) (es : List (Nat × Nat))
    (p : LicensePool) : Prop :=
  skipPool p = true ∨
    (p.presentation_edition = some (facts.choosePoolPE p.pid) ∧
     lookupEdition es (facts.choosePoolPE p.pid)
       = some (facts.editionDerived (facts.choosePoolPE p.pid)))

/-- A Work on which the presentation-edition pass has reached its fixed
point: the superceded marking changes nothing, every pool is fully
processed against the stored edition tuples, and the Work's presentation
edition is that of one of its live pools (unless every pool is skipped). -/
def cpeFixed (facts : PresFacts) (w : PWork) : Prop :=
  mark_licensepools_as_superceded w.pools = w.pools
  ∧ (∀ p ∈ w.pools, poolDone facts w.editionState p)
  ∧ ((∀ p ∈ w.pools, skipPool p = true)
     ∨ (w.presentation_edition ≠ none
        ∧ ∃ p ∈ w.pools, skipPool p = false
            ∧ p.presentation_edition = w.presentation_edition))

/-- The summary id `Work.set_summary` stores for a given choice. -/
def summaryIdOf (choice : Option (Nat × String)) : Option Nat :=
  choice.map Prod.fst

/-- The summary text `Work.set_summary` stores for a given choice. -/
def summaryTextOf (choice : Option (Nat × String)) : String :=
  match choice with
  | some c => c.2
  | none => ""

/-- A Work on which the whole presentation recompute has reached its
fixed point: each enabled stage of `calculate_presentation` rewrites
exactly what the Work already stores. -/
def presFixed (facts : PresFacts) (policy : PresentationCalculationPolicy)
    (w : PWork) : Prop :=
  (policy.choose_edition = true → cpeFixed facts w)
  ∧ (policy.classify = true →
      w.fiction = facts.classifierFiction
      ∧ w.audience = facts.classifierAudience
      ∧ w.target_age = facts.classifierTargetAge
      ∧ ¬(facts.classifierGenres ≠ []
          ∧ (facts.classifierGenres.map Prod.snd).sum = 0)
      ∧ w.work_genres = facts.classifierGenres.map
          (fun gs => (gs.1, gs.2 / (facts.classifierGenres.map Prod.snd).sum)))
  ∧ (policy.choose_summary = true →
      w.summary = summaryIdOf facts.summaryChoice
      ∧ w.summary_text = summaryTextOf facts.summaryChoice)
  ∧ (policy.calculate_quality = true →
      w.quality = some (facts.overallQuality 0))

theorem length_dethrone (done : List LicensePool) (champ : Option Nat) :
    (dethrone done champ).length = done.length := by
  cases champ with
  | none => rfl
  | some i =>
    simp only [dethrone]
    cases h : done[i]? with
    | none => rfl
    | some c => simp

theorem getElem?_dethrone_ne (done : List LicensePool) (champ : Option Nat)
    (j : Nat) (hj : champ ≠ some j) :
    (dethrone done champ)[j]? = done[j]? := by
  cases champ with
  | none => rfl
  | some i =>
    simp only [dethrone]
    cases h : done[i]? with
    | none => rfl
    | some c =>
      have hij : i ≠ j := fun e => hj (by rw [e])
      exact List.getElem?_set_ne hij

theorem getElem?_dethrone_self (done : List LicensePool) (i : Nat)
    (c : LicensePool) (h : done[i]? = some c) :
    (dethrone done (some i))[i]? = some {c with superceded := true} := by
  simp only [dethrone]
  rw [h]
  have hi : i < done.length := (List.getElem?_eq_some.mp h).1
  simp [List.getElem?_set_self, hi]

theorem markInv_nil : MarkInv ([], none) := by
  refine ⟨?_, ?_, ?_, ?_⟩ <;> intro i <;> simp

theorem markInv_step (acc : List LicensePool × Option Nat)
    (pool : LicensePool) (h : MarkInv acc) : MarkInv (markStep acc pool) := by
  obtain ⟨done, champ⟩ := acc
  by_cases hoa : pool.open_access
  · by_cases hb : pool.better_open_access_pool_than (champ.bind fun i => done[i]?)
    · -- pool becomes the new champion; the old champion, if any, is dethroned
      have hstep : markStep (done, champ) pool =
          (dethrone done champ ++ [{pool with superceded := false}],
           some (dethrone done champ).length) := by
        simp [markStep, hoa, hb]
      rw [hstep]
      have hlen := length_dethrone done champ
      refine ⟨?_, ?_, ?_, ?_⟩
      · intro i p hp hpo
        rcases Nat.lt_or_ge i (dethrone done champ).length with hi | hi
        · rw [List.getElem?_append_left hi] at hp
          by_cases hci : champ = some i
          · -- the dethroned champion is open-access, contradicting hpo
            obtain ⟨c, hc⟩ : ∃ c, done[i]? = some c := by
              have hil : i < done.length := h.champ_lt i hci
              exact ⟨done[i], List.getElem?_eq_getElem hil⟩
            rw [hci, getElem?_dethrone_self done i c hc] at hp
            have hpc := Option.some.inj hp
            have : c.open_access = true := h.champ_oa i c hci hc
            rw [← hpc] at hpo
            simp at hpo
            rw [hpo] at this
            cases this
          · rw [getElem?_dethrone_ne done champ i hci] at hp
            exact h.non_oa i p hp hpo
        · rcases Nat.eq_or_lt_of_le hi with hi' | hi'
          · rw [← hi', List.getElem?_concat_length] at hp
            have hpc := Option.some.inj hp
            rw [← hpc]
          · rw [List.getElem?_eq_none (by simpa using hi')] at hp
            cases hp
      · intro i p hp hpo
        rcases Nat.lt_or_ge i (dethrone done champ).length with hi | hi
        · rw [List.getElem?_append_left hi] at hp
          constructor
          · intro hsup
            exfalso
            by_cases hci : champ = some i
            · obtain ⟨c, hc⟩ : ∃ c, done[i]? = some c := by
                have hil : i < done.length := h.champ_lt i hci
                exact ⟨done[i], List.getElem?_eq_getElem hil⟩
              rw [hci, getElem?_dethrone_self done i c hc] at hp
              have hpc := Option.some.inj hp
              rw [← hpc] at hsup
              simp at hsup
            · rw [getElem?_dethrone_ne done champ i hci] at hp
              exact hci ((h.oa i p hp hpo).mp hsup)
          · intro hc
            have := Option.some.inj hc
            omega
        · rcases Nat.eq_or_lt_of_le hi with hi' | hi'
          · rw [← hi', List.getElem?_concat_length] at hp
            have hpc := Option.some.inj hp
            rw [← hpc]
            simp [hi']
          · rw [List.getElem?_eq_none (by simpa using hi')] at hp
            cases hp
      · intro i hc
        have := Option.some.inj hc
        simp [← this]
      · intro i p hc hp
        have hi := Option.some.inj hc
        rw [← hi, List.getElem?_concat_length] at hp
        have hpc := Option.some.inj hp
        rw [← hpc]
        exact hoa
    · -- pool is not better: it is marked superceded, the champion stays
      have hstep : markStep (done, champ) pool =
          (done ++ [{pool with superceded := true}], champ) := by
        simp [markStep, hoa, hb]
      rw [hstep]
      refine ⟨?_, ?_, ?_, ?_⟩
      · intro i p hp hpo
        rcases Nat.lt_or_ge i done.length with hi | hi
        · rw [List.getElem?_append_left hi] at hp
          exact h.non_oa i p hp hpo
        · rcases Nat.eq_or_lt_of_le hi with hi' | hi'
          · rw [← hi', List.getElem?_concat_length] at hp
            have hpc := Option.some.inj hp
            rw [← hpc] at hpo
            simp [hoa] at hpo
          · rw [List.getElem?_eq_none (by simpa using hi')] at hp
            cases hp
      · intro i p hp hpo
        rcases Nat.lt_or_ge i done.length with hi | hi
        · rw [List.getElem?_append_left hi] at hp
          exact h.oa i p hp hpo
        · rcases Nat.eq_or_lt_of_le hi with hi' | hi'
          · rw [← hi', List.getElem?_concat_length] at hp
            have hpc := Option.some.inj hp
            constructor
            · intro hsup
              rw [← hpc] at hsup
              simp at hsup
            · intro hc
              have hlt : i < done.length := h.champ_lt i hc
              omega
          · rw [List.getElem?_eq_none (by simpa using hi')] at hp
            cases hp
      · intro i hc
        have hlt : i < done.length := h.champ_lt i hc
        simp
        omega
      · intro i p hc hp
        have hi := h.champ_lt i hc
        rw [List.getElem?_append_left hi] at hp
        exact h.champ_oa i p hc hp
  · -- a non-open-access pool is unmarked and does not affect the champion
    have hstep : markStep (done, champ) pool =
        (done ++ [{pool with superceded := false}], champ) := by
      simp [markStep, hoa]
    rw [hstep]
    refine ⟨?_, ?_, ?_, ?_⟩
    · intro i p hp hpo
      rcases Nat.lt_or_ge i done.length with hi | hi
      · rw [List.getElem?_append_left hi] at hp
        exact h.non_oa i p hp hpo
      · rcases Nat.eq_or_lt_of_le hi with hi' | hi'
        · rw [← hi', List.getElem?_concat_length] at hp
          have hpc := Option.some.inj hp
          rw [← hpc]
        · rw [List.getElem?_eq_none (by simpa using hi')] at hp
          cases hp
    · intro i p hp hpo
      rcases Nat.lt_or_ge i done.length with hi | hi
      · rw [List.getElem?_append_left hi] at hp
        exact h.oa i p hp hpo
      · rcases Nat.eq_or_lt_of_le hi with hi' | hi'
        · rw [← hi', List.getElem?_concat_length] at hp
          have hpc := Option.some.inj hp
          rw [← hpc] at hpo
          simp at hpo
          simp [hpo] at hoa
        · rw [List.getElem?_eq_none (by simpa using hi')] at hp
          cases hp
    · intro i hc
      have hlt : i < done.length := h.champ_lt i hc
      simp
      omega
    · intro i p hc hp
      have hi := h.champ_lt i hc
      rw [List.getElem?_append_left hi] at hp
      exact h.champ_oa i p hc hp

theorem markInv_foldl (pools : List LicensePool)
    (acc : List LicensePool × Option Nat) (h : MarkInv acc) :
    MarkInv (pools.foldl markStep acc) := by
  induction pools generalizing acc with
  | nil => exact h
  | cons p ps ih => exact ih _ (markInv_step _ p h)

theorem markInv_mark (pools : List LicensePool) :
    MarkInv (pools.foldl markStep ([], none)) :=
  markInv_foldl pools _ markInv_nil

/-- C1.  For every Work, after `mark_licensepools_as_superceded` runs:
every non-open-access pool has `superceded = False`; an open-access pool
has `superceded = False` exactly when it is the champion accumulated
pairwise via `better_open_access_pool_than` (so in particular at most one
open-access pool is non-superceded, and every other open-access pool has
`superceded = True`). -/
theorem mark_licensepools_as_superceded_champion (pools : List LicensePool) :
    (∀ p ∈ mark_licensepools_as_superceded pools,
      p.open_access = false → p.superceded = false)
    ∧ (∀ (i : Nat) (p : LicensePool),
        (mark_licensepools_as_superceded pools)[i]? = some p →
        p.open_access = true →
        (p.superceded = false ↔ markChampion pools = some i))
    ∧ (∀ (i j : Nat) (p q : LicensePool),
        (mark_licensepools_as_superceded pools)[i]? = some p →
        (mark_licensepools_as_superceded pools)[j]? = some q →
        p.open_access = true → q.open_access = true →
        p.superceded = false → q.superceded = false → i = j) := by
  have h := markInv_mark pools
  refine ⟨?_, ?_, ?_⟩
  · intro p hp hpo
    obtain ⟨i, hi, hget⟩ := List.mem_iff_getElem.mp hp
    refine h.non_oa i p ?_ hpo
    show (mark_licensepools_as_superceded pools)[i]? = some p
    rw [List.getElem?_eq_getElem hi, hget]
  · intro i p hp hpo
    exact h.oa i p hp hpo
  · intro i j p q hp hq hpo hqo hps hqs
    have h1 := (h.oa i p hp hpo).mp hps
    have h2 := (h.oa j q hq hqo).mp hqs
    rw [h1] at h2
    exact Option.some.inj h2

/-- A suppressed pool, or a pool with no Identifier, is never judged
better than any champion (`better_open_access_pool_than`, model.py lines
5629-5637). -/
theorem better_false_of_suppressed_or_no_identifier (p : LicensePool)
    (champ : Option LicensePool)
    (h : p.suppressed = true ∨ p.identifier = none) :
    p.better_open_access_pool_than champ = false := by
  unfold LicensePool.better_open_access_pool_than
  rcases h with h | h
  · cases hi : p.identifier with
    | none => rfl
    | some v => simp [h]
  · rw [h]

theorem markChampion_none_of_suppressed (pools : List LicensePool)
    (hall : ∀ p ∈ pools, p.open_access = true → p.suppressed = true) :
    markChampion pools = none := by
  unfold markChampion
  suffices h : ∀ acc : List LicensePool × Option Nat, acc.2 = none →
      (pools.foldl markStep acc).2 = none by
    exact h ([], none) rfl
  induction pools with
  | nil => intro acc h; exact h
  | cons p ps ih =>
    intro acc hacc
    have hp : p ∈ p :: ps := List.mem_cons_self p ps
    have hstep : (markStep acc p).2 = none := by
      obtain ⟨done, champ⟩ := acc
      by_cases hoa : p.open_access
      · have hsup := hall p hp hoa
        have hbf := better_false_of_suppressed_or_no_identifier p
          (champ.bind fun i => done[i]?) (Or.inl hsup)
        simp [markStep, hoa, hbf]
        exact hacc
      · simp [markStep, hoa]
        exact hacc
    have := ih (fun q hq hqo => hall q (List.mem_cons_of_mem p hq) hqo)
    exact this (markStep acc p) hstep

/-- C10.  A suppressed LicensePool, or one with no Identifier, is never
selected as open-access champion by `better_open_access_pool_than`
(regardless of whether any alternative exists); consequently, after
`mark_licensepools_as_superceded`, a Work all of whose open-access pools
are suppressed has every open-access pool marked superceded — it may have
zero non-superseded open-access pools even though it contains open-access
pools. -/
theorem suppressed_pools_never_champion :
    (∀ (p : LicensePool) (champ : Option LicensePool),
      p.suppressed = true ∨ p.identifier = none →
      p.better_open_access_pool_than champ = false)
    ∧ (∀ pools : List LicensePool,
        (∀ p ∈ pools, p.open_access = true → p.suppressed = true) →
        ∀ p ∈ mark_licensepools_as_superceded pools,
          p.open_access = true → p.superceded = true) := by
  refine ⟨better_false_of_suppressed_or_no_identifier, ?_⟩
  intro pools hall p hp hpo
  have h := markInv_mark pools
  obtain ⟨i, hi, hget⟩ := List.mem_iff_getElem.mp hp
  have hoa := h.oa i p (by
    show (mark_licensepools_as_superceded pools)[i]? = some p
    rw [List.getElem?_eq_getElem hi, hget]) hpo
  have hnone : markChampion pools = none := markChampion_none_of_suppressed pools hall
  cases hs : p.superceded with
  | true => rfl
  | false =>
    have := hoa.mp hs
    rw [show (List.foldl markStep ([], none) pools).2 = markChampion pools from rfl,
      hnone] at this
    cases this

theorem bestLink_foldl_some (p : LicensePool) (rs : List Resource)
    (b : Resource) :
    (rs.foldl (LicensePool.bestLinkStep p)
      (some b, LicensePool.open_access_source_priority p)).1 =
    rs.foldl bestLinkAmendedStep (some b) := by
  induction rs generalizing b with
  | nil => rfl
  | cons r rs ih =>
    simp only [List.foldl_cons]
    by_cases hs : supportedBookResource r
    · by_cases hg : (b.data_source_name = GUTENBERG
          && r.data_source_name = GUTENBERG
          && noimagesIn ((b.representation.map Representation.mirror_url).getD "")
          && !noimagesIn ((r.representation.map Representation.mirror_url).getD "")) = true
      · have h1 : LicensePool.bestLinkStep p
            (some b, LicensePool.open_access_source_priority p) r =
            (some r, LicensePool.open_access_source_priority p) := by
          simp [LicensePool.bestLinkStep, hs, hg]
        have h2 : bestLinkAmendedStep (some b) r = some r := by
          simp [bestLinkAmendedStep, hs, hg]
        rw [h1, h2]
        exact ih r
      · have h1 : LicensePool.bestLinkStep p
            (some b, LicensePool.open_access_source_priority p) r =
            (some b, LicensePool.open_access_source_priority p) := by
          simp [LicensePool.bestLinkStep, hs, hg]
        have h2 : bestLinkAmendedStep (some b) r = some b := by
          simp [bestLinkAmendedStep, hs, hg]
        rw [h1, h2]
        exact ih b
    · have h1 : LicensePool.bestLinkStep p
          (some b, LicensePool.open_access_source_priority p) r =
          (some b, LicensePool.open_access_source_priority p) := by
        simp [LicensePool.bestLinkStep, hs]
      have h2 : bestLinkAmendedStep (some b) r = some b := by
        simp [bestLinkAmendedStep, hs]
      rw [h1, h2]
      exact ih b
theorem bestLink_foldl_none (p : LicensePool) (rs : List Resource) :
    (rs.foldl (LicensePool.bestLinkStep p) (none, -1)).1 =
    rs.foldl bestLinkAmendedStep none := by
  induction rs with
  | nil => rfl
  | cons r rs ih =>
    simp only [List.foldl_cons]
    by_cases hs : supportedBookResource r
    · have h1 : LicensePool.bestLinkStep p (none, -1) r =
          (some r, LicensePool.open_access_source_priority p) := by
        simp [LicensePool.bestLinkStep, hs]
      have h2 : bestLinkAmendedStep none r = some r := by
        simp [bestLinkAmendedStep, hs]
      rw [h1, h2]
      exact bestLink_foldl_some p rs r
    · have h1 : LicensePool.bestLinkStep p (none, -1) r = (none, -1) := by
        simp [LicensePool.bestLinkStep, hs]
      have h2 : bestLinkAmendedStep none r = none := by
        simp [bestLinkAmendedStep, hs]
      rw [h1, h2]
      exact ih

theorem amendedStep_cases (acc : Option Resource) (r : Resource) :
    bestLinkAmendedStep acc r = acc ∨
    (supportedBookResource r = true ∧ bestLinkAmendedStep acc r = some r) := by
  unfold bestLinkAmendedStep
  by_cases hs : supportedBookResource r
  · rw [if_neg (by simp [hs])]
    cases acc with
    | none => right; exact ⟨hs, rfl⟩
    | some best =>
      by_cases hg : (best.data_source_name = GUTENBERG
          && r.data_source_name = GUTENBERG
          && noimagesIn ((best.representation.map Representation.mirror_url).getD "")
          && !noimagesIn ((r.representation.map Representation.mirror_url).getD "")) = true
      · right
        refine ⟨hs, ?_⟩
        simp only []
        rw [if_pos hg]
      · left
        simp only []
        rw [if_neg hg]
  · left
    rw [if_pos (by simp [hs])]

theorem amendedStep_supported (acc : Option Resource) (r : Resource)
    (h : ∀ b, acc = some b → supportedBookResource b = true) :
    ∀ b, bestLinkAmendedStep acc r = some b → supportedBookResource b = true := by
  intro b hb
  rcases amendedStep_cases acc r with hc | ⟨hsr, hc⟩
  · rw [hc] at hb
    exact h b hb
  · rw [hc] at hb
    have := Option.some.inj hb
    rw [← this]
    exact hsr

/-- C7, as corrected.  `best_open_access_link` rejects every candidate
whose media type is not a supported book media type (everything it
returns is supported), and among the remaining candidates it keeps the
*first* one — the priority it compares is the pool's own data source's
priority for champion and challenger alike, so a later candidate never
wins on priority — except that a challenger replaces the current best
when both come from Project Gutenberg and the best's mirrored filename
contains 'noimages' while the challenger's does not
(`best_open_access_link_amended` is exactly that selection rule). -/
theorem best_open_access_link_first_supported :
    (∀ p : LicensePool,
      LicensePool.best_open_access_link p = best_open_access_link_amended p)
    ∧ (∀ (p : LicensePool) (r : Resource),
        LicensePool.best_open_access_link p = some r →
        supportedBookResource r = true) := by
  constructor
  · intro p
    exact bestLink_foldl_none p p.open_access_links
  · intro p r hr
    have hr2 : best_open_access_link_amended p = some r := by
      rw [← (show LicensePool.best_open_access_link p =
        best_open_access_link_amended p from
        bestLink_foldl_none p p.open_access_links)]
      exact hr
    revert hr2
    have : ∀ (rs : List Resource) (acc : Option Resource),
        (∀ b, acc = some b → supportedBookResource b = true) →
        ∀ b, rs.foldl bestLinkAmendedStep acc = some b →
          supportedBookResource b = true := by
      intro rs
      induction rs with
      | nil => intro acc h b hb; exact h b hb
      | cons x xs ih =>
        intro acc h b hb
        exact ih (bestLinkAmendedStep acc x) (amendedStep_supported acc x h) b hb
    intro hr2
    exact this p.open_access_links none (by intro b hb; cases hb) r hr2

set_option maxRecDepth 10000 in
/-- C7's counterexample: the pool's two candidates are both supported;
the second comes from Standard Ebooks, whose open-access source priority
(5) is strictly higher than that of the first candidate's source
unglue.it (0); yet `best_open_access_link` returns the first candidate. -/
theorem best_open_access_link_ignores_resource_priority :
    LicensePool.best_open_access_link c7Pool = some c7LowPriorityResource
    ∧ supportedBookResource c7HighPriorityResource = true
    ∧ sourceNamePriority c7HighPriorityResource.data_source_name >
        sourceNamePriority c7LowPriorityResource.data_source_name := by
  refine ⟨by decide, by decide, by decide⟩

/-- C6, as corrected.  `overall_quality`: with no usable measurement it
returns the default; with only popularity/download measurements it
returns their weighted-average normalized value, whatever the weights;
with popularity and rating present it returns
`popularity*popularity_weight + rating*rating_weight`; and a
separately-tracked quality average is folded in with equal weight
(`composite/2 + quality/2`) only when it is nonzero — a quality average
of exactly 0 is skipped by the source's `if quality:` and the composite
is returned unchanged. -/
theorem overall_quality_weighting (ms : List Measurement) (pw rw d : ℚ)
    (hw : pw + rw = 1) :
    (popularityAvg ms = none → ratingAvg ms = none → qualityAvg ms = none →
      overall_quality ms pw rw d = some d)
    ∧ (∀ p, popularityAvg ms = some p → ratingAvg ms = none →
        qualityAvg ms = none → overall_quality ms pw rw d = some p)
    ∧ (∀ p r, popularityAvg ms = some p → ratingAvg ms = some r →
        (qualityAvg ms = none ∨ qualityAvg ms = some 0) →
        overall_quality ms pw rw d = some (p * pw + r * rw))
    ∧ (∀ p r q, popularityAvg ms = some p → ratingAvg ms = some r →
        qualityAvg ms = some q → q ≠ 0 →
        overall_quality ms pw rw d = some ((p * pw + r * rw) / 2 + q / 2))
    ∧ (∀ p q, popularityAvg ms = some p → ratingAvg ms = none →
        qualityAvg ms = some q → q ≠ 0 →
        overall_quality ms pw rw d = some (p / 2 + q / 2)) := by
  have hne : ¬(pw + rw ≠ 1) := by simpa using hw
  refine ⟨?_, ?_, ?_, ?_, ?_⟩
  · intro hp hr hq
    simp [overall_quality, if_neg hne, hp, hr, hq]
  · intro p hp hr hq
    simp [overall_quality, if_neg hne, hp, hr, hq]
  · intro p r hp hr hq
    rcases hq with hq | hq
    · simp [overall_quality, if_neg hne, hp, hr, hq, optTruthy]
    · simp [overall_quality, if_neg hne, hp, hr, hq, optTruthy]
  · intro p r q hp hr hq hq0
    simp [overall_quality, if_neg hne, hp, hr, hq, optTruthy, hq0]
  · intro p q hp hr hq hq0
    simp [overall_quality, if_neg hne, hp, hr, hq, optTruthy, hq0]

/-- C6's counterexample.  The second measurement is a separately-tracked
quality measurement whose (usable) normalized value is exactly 0: the
claim's rule `composite/2 + quality/2` demands `0.4/2 + 0/2 = 0.2`, but
`overall_quality` returns the bare popularity composite `0.4`, because
`if quality:` is falsy at 0.0. -/
theorem overall_quality_skips_zero_quality :
    Measurement.normalized_value c6ZeroQualityMeasurement = some 0
    ∧ qualityAvg [c6PopularityMeasurement, c6ZeroQualityMeasurement] = some 0
    ∧ overall_quality [c6PopularityMeasurement, c6ZeroQualityMeasurement]
        = some (2/5)
    ∧ (2/5 : ℚ) ≠ (2/5) / 2 + 0 / 2 := by
  refine ⟨by with_unfolding_all rfl, by with_unfolding_all rfl,
    by with_unfolding_all rfl, by norm_num⟩

theorem overall_quality_weighting_witness :
    overall_quality [] (3/10) (7/10) (1/2) = some (1/2)
    ∧ overall_quality [c6PopularityMeasurement] (3/10) (7/10) 0 = some (2/5) := by
  constructor
  · exact (overall_quality_weighting [] (3/10) (7/10) (1/2) (by norm_num)).1
      (by with_unfolding_all rfl) (by with_unfolding_all rfl)
      (by with_unfolding_all rfl)
  · exact (overall_quality_weighting [c6PopularityMeasurement]
      (3/10) (7/10) 0 (by norm_num)).2.1 (2/5)
      (by with_unfolding_all rfl) (by with_unfolding_all rfl)
      (by with_unfolding_all rfl)

/-- C8.  The default quality baseline `Work.calculate_presentation`
passes to the Quality Aggregator is always 0, never the highest
configured per-source default: the accumulating loop is a Python
`for ... else` whose `else` clause (which has no `break` to skip it)
unconditionally resets `default_quality` to 0.  A Work whose only pool
comes from 3M (configured default 0.65) therefore gets quality 0 from
`overall_quality` when it has no usable measurements, not 0.65. -/
theorem calculate_presentation_default_quality_always_zero :
    (∀ sources : List String, calculatePresentationDefaultQuality sources = 0)
    ∧ licensedDataSources [c8CommercialPool] = [THREEM]
    ∧ maxConfiguredDefaultQuality (licensedDataSources [c8CommercialPool])
        = some (13/20)
    ∧ default_quality_by_data_source THREEM = some (13/20)
    ∧ overall_quality [] (3/10) (7/10)
        (calculatePresentationDefaultQuality
          (licensedDataSources [c8CommercialPool])) = some 0
    ∧ (0 : ℚ) ≠ 13/20 := by
  refine ⟨fun sources => rfl, by with_unfolding_all rfl,
    by with_unfolding_all rfl, by with_unfolding_all rfl,
    by with_unfolding_all rfl, by norm_num⟩

theorem subset_expandOnce (edges : List Equivalency) (threshold : ℚ)
    (s : Finset Nat) : s ⊆ expandOnce edges threshold s :=
  Finset.subset_union_left

theorem reachableWithin_succ (edges : List Equivalency) (threshold : ℚ)
    (n a b : Nat) (h : ReachableWithin edges threshold n a b) :
    ReachableWithin edges threshold (n + 1) a b := by
  induction h with
  | refl n a => exact ReachableWithin.refl (n + 1) a
  | step n a b c hab hbc ih => exact ReachableWithin.step (n + 1) a b c ih hbc

/-- C9.  `equivalent_ids` returns, for each seed, exactly the identifiers
reachable from the seed within at most `levels` hops over Equivalency
edges treated as undirected, using only edges with strength ≥ threshold —
always including the seed itself; so it never returns an id reachable
only via an edge below the threshold and never follows more than `levels`
hops. -/
theorem equivalent_ids_eq_reachable (edges : List Equivalency)
    (threshold : ℚ) (levels seed : Nat) :
    seed ∈ equivalent_ids edges levels threshold seed
    ∧ (∀ i : Nat, i ∈ equivalent_ids edges levels threshold seed ↔
        ReachableWithin edges threshold levels seed i)
    ∧ (∀ entry ∈ recursively_equivalent_identifier_ids edges
        [seed] levels threshold,
        ∀ i : Nat, i ∈ entry.2 ↔ ReachableWithin edges threshold levels entry.1 i) := by
  have key : ∀ (n : Nat) (i : Nat),
      i ∈ (expandOnce edges threshold)^[n] {seed} ↔
      ReachableWithin edges threshold n seed i := by
    intro n
    induction n with
    | zero =>
      intro i
      simp only [Function.iterate_zero, id, Finset.mem_singleton]
      constructor
      · rintro rfl
        exact ReachableWithin.refl 0 _
      · intro h
        cases h
        rfl
    | succ n ih =>
      intro i
      rw [Function.iterate_succ_apply']
      constructor
      · intro hi
        rcases Finset.mem_union.mp hi with hi | hi
        · exact reachableWithin_succ edges threshold n seed i ((ih i).mp hi)
        · obtain ⟨j, hj, hij⟩ := Finset.mem_biUnion.mp hi
          rw [List.mem_toFinset] at hij
          exact ReachableWithin.step n seed j i ((ih j).mp hj) hij
      · intro h
        match h with
        | ReachableWithin.refl _ _ =>
          exact subset_expandOnce edges threshold _
            ((ih _).mpr (ReachableWithin.refl n _))
        | ReachableWithin.step _ _ b _ hab hbc =>
          exact Finset.mem_union_right _
            (Finset.mem_biUnion.mpr ⟨b, (ih b).mpr hab, List.mem_toFinset.mpr hbc⟩)
  refine ⟨(key levels seed).mpr (ReachableWithin.refl levels seed), key levels, ?_⟩
  intro entry hentry i
  simp only [recursively_equivalent_identifier_ids, List.map_cons, List.map_nil,
    List.mem_singleton] at hentry
  subst hentry
  exact key levels i

/-- C2.  `Work.merge_into` raises (the spec's `ClusterConsistencyError`,
a `ValueError` in the source) when the pwid sets of the two Works differ,
and also when either Work contains a non-open-access LicensePool; in
every such case the returned state is exactly the input state — no
LicensePool is moved, no WorkGenre or WorkCoverageRecord row is deleted,
and neither Work is deleted. -/
theorem merge_into_raises_and_leaves_state_unchanged (s : ClusterState)
    (a b : Nat)
    (h : s.pwids a ≠ s.pwids b ∨
      ∃ p ∈ s.poolsOfWork a ++ s.poolsOfWork b, p.open_access = false) :
    (merge_into s a b).2.isSome = true ∧ (merge_into s a b).1 = s := by
  unfold merge_into
  by_cases hcom : ((s.poolsOfWork a) ++ (s.poolsOfWork b)).any
      (fun p => !p.open_access) = true
  · simp [hcom]
  · have hp : s.pwids a ≠ s.pwids b := by
      rcases h with h | ⟨p, hp, hpo⟩
      · exact h
      · exact absurd (List.any_eq_true.mpr ⟨p, hp, by simp [hpo]⟩) hcom
    simp [hcom, hp]

theorem merge_into_raises_witness :
    (merge_into c2State 1 2).2.isSome = true
    ∧ (merge_into c2State 1 2).1 = c2State := by
  refine merge_into_raises_and_leaves_state_unchanged c2State 1 2 (Or.inl ?_)
  decide

/-- C3's failing run.  Resolving the commercial pool 1 of `c3State`
finishes without error, returning Work 1 — but the final state still has
the commercial pool sharing Work 1 with the two open-access pools:
during the sanity pass each open-access pool is detached and re-resolved
(landing back in Work 1, from which the recursive resolution had
meanwhile evicted pool 1 into the fresh Work 2), and the final
`if not self in work.license_pools: work.license_pools.append(self)`
puts the commercial pool back into Work 1, violating I3. -/
theorem calculate_work_leaves_commercial_pool_shared :
    (cresState (calculate_work 12 c3State 1)).isSome = true
    ∧ (calculate_work 12 c3State 1 ≠ CRes.nofuel)
    ∧ ((cresState (calculate_work 12 c3State 1)).map
        (fun s => ((s.poolsOfWork 1).map CPool.pid,
          (s.findPool 1).map (fun p => (p.open_access, p.work)))))
      = some ([1, 2, 3], some (false, some 1))
    ∧ ((cresState (calculate_work 12 c3State 1)).map commercialPoolsAlone)
      = some false := by
  refine ⟨by with_unfolding_all rfl, by with_unfolding_all decide,
    by with_unfolding_all rfl, by with_unfolding_all rfl⟩

/-- C4's failing run.  `c4State` has two distinct Works claiming pwid
"x"; resolving pool 1 picks Work 2 (the most pools) as survivor, but the
eviction pass fails to clear the off-pwid pools out of it (each evicted
pool's recursive resolution reattaches it to Work 2, which still holds
the most "y" pools), so `merge_into` raises instead of consolidating. -/
theorem open_access_for_pwid_consolidation_raises :
    calculate_work 12 c4State 1 = CRes.raised
    ∧ calculate_work 30 c4State 1 = CRes.raised
    ∧ ((c4State.matchingPools "x" BOOK_MEDIUM).map
        (fun p => (p.pid, p.work))) = [(1, some 1), (2, some 2)] := by
  refine ⟨by with_unfolding_all rfl, by with_unfolding_all rfl,
    by with_unfolding_all rfl⟩


theorem better_congr_core (p : LicensePool) (c : Option LicensePool) :
    p.better_open_access_pool_than c =
    (markCore p).better_open_access_pool_than (c.map markCore) := by
  cases c <;> rfl

theorem markCore_eraseSup (p : LicensePool) :
    markCore (eraseSup p) = markCore p := rfl

theorem eraseSup_set_superceded (p : LicensePool) (b : Bool) :
    eraseSup {p with superceded := b} = eraseSup p := rfl

theorem pool_eq_of_eraseSup (p q : LicensePool)
    (h1 : eraseSup p = eraseSup q) (h2 : p.superceded = q.superceded) :
    p = q := by
  cases p
  cases q
  simp [eraseSup, LicensePool.mk.injEq] at h1 ⊢
  simp_all

theorem set_getElem_self (l : List LicensePool) (i : Nat) (v : LicensePool)
    (h : l[i]? = some v) : l.set i v = l := by
  apply List.ext_getElem?
  intro j
  by_cases hij : i = j
  · subst hij
    have hi : i < l.length := (List.getElem?_eq_some.mp h).1
    simp [List.getElem?_set_self, hi]
    exact ((List.getElem?_eq_some.mp h).2).symm
  · exact List.getElem?_set_ne hij

theorem dethrone_map_eraseSup (done : List LicensePool) (champ : Option Nat) :
    (dethrone done champ).map eraseSup = done.map eraseSup := by
  cases champ with
  | none => rfl
  | some i =>
    simp only [dethrone]
    cases h : done[i]? with
    | none => rfl
    | some c =>
      have : (done.map eraseSup).set i (eraseSup {c with superceded := true})
          = done.map eraseSup := by
        apply set_getElem_self
        rw [List.getElem?_map, h]
        rfl
      rw [← this, List.map_set]

theorem markStep_map_eraseSup (acc : List LicensePool × Option Nat)
    (p : LicensePool) :
    (markStep acc p).1.map eraseSup = acc.1.map eraseSup ++ [eraseSup p] := by
  obtain ⟨done, champ⟩ := acc
  by_cases hoa : p.open_access
  · by_cases hb : p.better_open_access_pool_than (champ.bind fun i => done[i]?)
    · have hstep : markStep (done, champ) p =
          (dethrone done champ ++ [{p with superceded := false}],
           some (dethrone done champ).length) := by
        simp [markStep, hoa, hb]
      rw [hstep]
      simp [dethrone_map_eraseSup, eraseSup_set_superceded]
    · have hstep : markStep (done, champ) p =
          (done ++ [{p with superceded := true}], champ) := by
        simp [markStep, hoa, hb]
      rw [hstep]
      simp [eraseSup_set_superceded]
  · have hstep : markStep (done, champ) p =
        (done ++ [{p with superceded := false}], champ) := by
      simp [markStep, hoa]
    rw [hstep]
    simp [eraseSup_set_superceded]

theorem mark_foldl_map_eraseSup (ps : List LicensePool) :
    ∀ acc : List LicensePool × Option Nat,
    (ps.foldl markStep acc).1.map eraseSup
      = acc.1.map eraseSup ++ ps.map eraseSup := by
  induction ps with
  | nil => intro acc; simp
  | cons p rest ih =>
    intro acc
    rw [List.foldl_cons, ih (markStep acc p), markStep_map_eraseSup]
    simp

theorem mark_map_eraseSup (ps : List LicensePool) :
    (mark_licensepools_as_superceded ps).map eraseSup = ps.map eraseSup := by
  unfold mark_licensepools_as_superceded
  rw [mark_foldl_map_eraseSup]
  rfl

theorem markCore_set_superceded (p : LicensePool) (b : Bool) :
    markCore {p with superceded := b} = markCore p := rfl

theorem dethrone_map_markCore (done : List LicensePool) (champ : Option Nat) :
    (dethrone done champ).map markCore = done.map markCore := by
  cases champ with
  | none => rfl
  | some i =>
    simp only [dethrone]
    cases h : done[i]? with
    | none => rfl
    | some c =>
      have : (done.map markCore).set i (markCore {c with superceded := true})
          = done.map markCore := by
        apply set_getElem_self
        rw [List.getElem?_map, h]
        rfl
      rw [← this, List.map_set]

theorem markStep_rel (a b : List LicensePool × Option Nat)
    (p q : LicensePool) (hpq : markCore p = markCore q)
    (h : MarkRel a b) : MarkRel (markStep a p) (markStep b q) := by
  obtain ⟨doneA, champA⟩ := a
  obtain ⟨doneB, champB⟩ := b
  obtain ⟨hcore, hflags, hchamp⟩ := h
  simp only at hcore hflags hchamp
  subst hchamp
  have hlen : doneA.length = doneB.length := by
    have := congrArg List.length hcore
    simpa using this
  have hoapq : p.open_access = q.open_access := by
    have h := congrArg LicensePool.open_access hpq
    exact h
  have hcopt : (champA.bind fun i => doneA[i]?).map markCore
      = (champA.bind fun i => doneB[i]?).map markCore := by
    cases champA with
    | none => rfl
    | some i =>
      show (doneA[i]?).map markCore = (doneB[i]?).map markCore
      rw [← List.getElem?_map, ← List.getElem?_map, hcore]
  have hbet : p.better_open_access_pool_than (champA.bind fun i => doneA[i]?)
      = q.better_open_access_pool_than (champA.bind fun i => doneB[i]?) := by
    rw [better_congr_core p _, better_congr_core q _, hpq, hcopt]
  by_cases hoa : p.open_access
  · have hqoa : q.open_access = true := by rw [← hoapq]; exact hoa
    by_cases hb : p.better_open_access_pool_than (champA.bind fun i => doneA[i]?)
    · have hqb : q.better_open_access_pool_than (champA.bind fun i => doneB[i]?) = true := by
        rw [← hbet]; exact hb
      have hsA : markStep (doneA, champA) p =
          (dethrone doneA champA ++ [{p with superceded := false}],
           some (dethrone doneA champA).length) := by
        simp [markStep, hoa, hb]
      have hsB : markStep (doneB, champA) q =
          (dethrone doneB champA ++ [{q with superceded := false}],
           some (dethrone doneB champA).length) := by
        simp [markStep, hqoa, hqb]
      rw [hsA, hsB]
      have hdcore : (dethrone doneA champA).map markCore
          = (dethrone doneB champA).map markCore := by
        rw [dethrone_map_markCore, dethrone_map_markCore, hcore]
      have hdflags : (dethrone doneA champA).map LicensePool.superceded
          = (dethrone doneB champA).map LicensePool.superceded := by
        cases champA with
        | none => exact hflags
        | some i =>
          simp only [dethrone]
          cases hA : doneA[i]? with
          | none =>
            have hB : doneB[i]? = none := by
              rw [List.getElem?_eq_none_iff] at hA ⊢
              omega
            rw [hB]
            exact hflags
          | some cA =>
            have hiA : i < doneA.length := (List.getElem?_eq_some.mp hA).1
            have hiB : i < doneB.length := by omega
            obtain ⟨cB, hB⟩ : ∃ c, doneB[i]? = some c :=
              ⟨doneB[i], List.getElem?_eq_getElem hiB⟩
            rw [hB]
            rw [List.map_set, List.map_set]
            show (doneA.map LicensePool.superceded).set i true
              = (doneB.map LicensePool.superceded).set i true
            rw [hflags]
      refine ⟨?_, ?_, ?_⟩
      · simp [markCore_set_superceded, hdcore, hpq]
      · simp only [List.map_append, List.map_cons, List.map_nil]
        rw [hdflags]
      · have : (dethrone doneA champA).length = (dethrone doneB champA).length := by
          rw [length_dethrone, length_dethrone, hlen]
        simp [this]
    · have hqb : q.better_open_access_pool_than (champA.bind fun i => doneB[i]?) = false := by
        rw [← hbet]; simp [hb]
      have hsA : markStep (doneA, champA) p =
          (doneA ++ [{p with superceded := true}], champA) := by
        simp [markStep, hoa, hb]
      have hsB : markStep (doneB, champA) q =
          (doneB ++ [{q with superceded := true}], champA) := by
        simp [markStep, hqoa, hqb]
      rw [hsA, hsB]
      refine ⟨?_, ?_, rfl⟩
      · simp [markCore_set_superceded, hcore, hpq]
      · simp only [List.map_append, List.map_cons, List.map_nil]
        rw [hflags]
  · have hqoa : q.open_access = false := by
      rw [← hoapq]; simp [hoa]
    have hsA : markStep (doneA, champA) p =
        (doneA ++ [{p with superceded := false}], champA) := by
      simp [markStep, hoa]
    have hsB : markStep (doneB, champA) q =
        (doneB ++ [{q with superceded := false}], champA) := by
      simp [markStep, hqoa]
    rw [hsA, hsB]
    refine ⟨?_, ?_, rfl⟩
    · simp [markCore_set_superceded, hcore, hpq]
    · simp only [List.map_append, List.map_cons, List.map_nil]
      rw [hflags]

theorem mark_foldl_rel (psA psB : List LicensePool)
    (hps : psA.map markCore = psB.map markCore) :
    ∀ a b, MarkRel a b →
      MarkRel (psA.foldl markStep a) (psB.foldl markStep b) := by
  induction psA generalizing psB with
  | nil =>
    cases psB with
    | nil => intro a b h; exact h
    | cons q qs => intro a b h; cases hps
  | cons p ps ih =>
    cases psB with
    | nil => cases hps
    | cons q qs =>
      intro a b h
      simp only [List.map_cons, List.cons.injEq] at hps
      rw [List.foldl_cons, List.foldl_cons]
      exact ih qs hps.2 _ _ (markStep_rel a b p q hps.1 h)

theorem mark_congr (psA psB : List LicensePool)
    (hps : psA.map markCore = psB.map markCore) :
    (mark_licensepools_as_superceded psA).map LicensePool.superceded
      = (mark_licensepools_as_superceded psB).map LicensePool.superceded
    ∧ markChampion psA = markChampion psB := by
  have h := mark_foldl_rel psA psB hps ([], none) ([], none) ⟨rfl, rfl, rfl⟩
  exact ⟨h.2.1, h.2.2⟩

theorem mark_eq_self (xs : List LicensePool)
    (h : (mark_licensepools_as_superceded xs).map LicensePool.superceded
      = xs.map LicensePool.superceded) :
    mark_licensepools_as_superceded xs = xs := by
  have he := mark_map_eraseSup xs
  apply List.ext_getElem?
  intro i
  have h1 : ((mark_licensepools_as_superceded xs)[i]?).map eraseSup
      = (xs[i]?).map eraseSup := by
    rw [← List.getElem?_map, ← List.getElem?_map, he]
  have h2 : ((mark_licensepools_as_superceded xs)[i]?).map LicensePool.superceded
      = (xs[i]?).map LicensePool.superceded := by
    rw [← List.getElem?_map, ← List.getElem?_map, h]
  cases hm : (mark_licensepools_as_superceded xs)[i]? with
  | none =>
    cases hx : xs[i]? with
    | none => rfl
    | some v => rw [hm, hx] at h1; cases h1
  | some u =>
    cases hx : xs[i]? with
    | none => rw [hm, hx] at h1; cases h1
    | some v =>
      rw [hm, hx] at h1 h2
      have e1 : eraseSup u = eraseSup v := Option.some.inj h1
      have e2 : u.superceded = v.superceded := Option.some.inj h2
      rw [pool_eq_of_eraseSup u v e1 e2]

theorem markCore_peErase (p : LicensePool) :
    markCore (peErase p) = markCore p := rfl

theorem pool_set_pe_self (p : LicensePool) (v : Option Nat)
    (h : p.presentation_edition = v) :
    ({p with presentation_edition := v} : LicensePool) = p := by
  cases p
  cases h
  rfl

theorem mapProjOfMap {α β γ : Type} (e : α → β) (f : α → γ) (g : β → γ)
    (hf : ∀ p, f p = g (e p)) {xs ys : List α}
    (h : xs.map e = ys.map e) : xs.map f = ys.map f := by
  have hx : xs.map f = (xs.map e).map g := by
    rw [List.map_map]
    exact List.map_congr_left fun a _ => hf a
  have hy : ys.map f = (ys.map e).map g := by
    rw [List.map_map]
    exact List.map_congr_left fun a _ => hf a
  rw [hx, hy, h]

theorem cpeLoop_map_peErase (facts : PresFacts) (old : Option Nat)
    (ps : List LicensePool) (acc : CpeAcc) :
    (cpeLoop facts old ps acc).1.map peErase = ps.map peErase := by
  induction ps generalizing acc with
  | nil => rfl
  | cons p rest ih =>
    by_cases hs : (p.superceded || p.suppressed : Bool)
    · simp only [cpeLoop, hs, if_true, List.map_cons]
      rw [ih]
    · simp only [cpeLoop, hs, Bool.false_eq_true, if_false, List.map_cons]
      rw [ih]
      rfl

theorem lookup_upsert_self (es : List (Nat × Nat)) (k v : Nat) :
    lookupEdition (upsertEdition es k v) k = some v := by
  induction es with
  | nil => simp [upsertEdition, lookupEdition]
  | cons e rest ih =>
    obtain ⟨k', v'⟩ := e
    by_cases hk : k' = k
    · subst hk
      simp [upsertEdition, lookupEdition]
    · simp only [upsertEdition, if_neg hk]
      simp only [lookupEdition, List.find?_cons] at ih ⊢
      have hd : (decide (k' = k)) = false := by simp [hk]
      rw [hd]
      exact ih

theorem lookup_upsert_ne (es : List (Nat × Nat)) (k j v : Nat)
    (hk : j ≠ k) :
    lookupEdition (upsertEdition es j v) k = lookupEdition es k := by
  induction es with
  | nil =>
    simp [upsertEdition, lookupEdition, hk]
  | cons e rest ih =>
    obtain ⟨k₀, v₀⟩ := e
    by_cases h0 : k₀ = j
    · subst h0
      simp only [upsertEdition, if_pos rfl]
      have h1 : (decide (k₀ = k)) = false := by simp [hk]
      simp only [lookupEdition, if_true, List.find?_cons, h1,
        Bool.false_eq_true, if_false]
    · simp only [upsertEdition, if_neg h0]
      simp only [lookupEdition, List.find?_cons] at ih ⊢
      by_cases h2 : k₀ = k
      · subst h2
        simp
      · have hd : (decide (k₀ = k)) = false := by simp [h2]
        rw [hd]
        exact ih

theorem upsert_of_lookup (es : List (Nat × Nat)) (k v : Nat)
    (h : lookupEdition es k = some v) : upsertEdition es k v = es := by
  induction es with
  | nil => simp [lookupEdition] at h
  | cons e rest ih =>
    obtain ⟨k', v'⟩ := e
    by_cases hk : k' = k
    · subst hk
      have hv : v' = v := by
        simp [lookupEdition, List.find?_cons] at h
        exact h
      subst hv
      simp [upsertEdition]
    · simp only [upsertEdition, if_neg hk]
      simp only [lookupEdition, List.find?_cons] at h
      have hd : (decide (k' = k)) = false := by simp [hk]
      rw [hd] at h
      rw [ih h]

theorem cpeLoop_cons_skip (facts : PresFacts) (old : Option Nat)
    (p : LicensePool) (rest : List LicensePool) (acc : CpeAcc)
    (hs : skipPool p = true) :
    cpeLoop facts old (p :: rest) acc =
      (p :: (cpeLoop facts old rest acc).1,
       (cpeLoop facts old rest acc).2) := by
  have hs' : (p.superceded || p.suppressed) = true := hs
  simp only [cpeLoop, hs', if_true]

theorem cpeLoop_cons_go (facts : PresFacts) (old : Option Nat)
    (p : LicensePool) (rest : List LicensePool) (acc : CpeAcc)
    (hs : skipPool p = false) :
    cpeLoop facts old (p :: rest) acc =
      ({p with presentation_edition := some (facts.choosePoolPE p.pid)} ::
         (cpeLoop facts old rest (cpeGoAcc facts old p acc)).1,
       (cpeLoop facts old rest (cpeGoAcc facts old p acc)).2) := by
  have hs' : (p.superceded || p.suppressed) = false := hs
  simp only [cpeLoop, hs', Bool.false_eq_true, if_false]
  rfl

theorem cpeLoop_es_preserves (facts : PresFacts) (old : Option Nat)
    (ps : List LicensePool) :
    ∀ acc k, lookupEdition acc.editionState k = some (facts.editionDerived k) →
    lookupEdition (cpeLoop facts old ps acc).2.editionState k
      = some (facts.editionDerived k) := by
  induction ps with
  | nil => intro acc k h; exact h
  | cons p rest ih =>
    intro acc k h
    by_cases hs : skipPool p
    · rw [cpeLoop_cons_skip facts old p rest acc hs]
      exact ih acc k h
    · rw [cpeLoop_cons_go facts old p rest acc (by simp [hs])]
      apply ih
      simp only [cpeGoAcc]
      by_cases hj : facts.choosePoolPE p.pid = k
      · subst hj
        exact lookup_upsert_self _ _ _
      · rw [lookup_upsert_ne _ _ _ _ hj]
        exact h

theorem cpeLoop_post (facts : PresFacts) (old : Option Nat)
    (ps : List LicensePool) :
    ∀ acc, ∀ p ∈ (cpeLoop facts old ps acc).1,
      poolDone facts (cpeLoop facts old ps acc).2.editionState p := by
  induction ps with
  | nil => intro acc p hp; cases hp
  | cons q rest ih =>
    intro acc p hp
    by_cases hs : skipPool q
    · rw [cpeLoop_cons_skip facts old q rest acc hs] at hp ⊢
      rcases List.mem_cons.mp hp with h | h
      · subst h
        exact Or.inl hs
      · exact ih acc p h
    · rw [cpeLoop_cons_go facts old q rest acc (by simp [hs])] at hp ⊢
      rcases List.mem_cons.mp hp with h | h
      · subst h
        refine Or.inr ⟨rfl, ?_⟩
        apply cpeLoop_es_preserves
        simp only [cpeGoAcc]
        exact lookup_upsert_self _ _ _
      · exact ih (cpeGoAcc facts old q acc) p h

theorem cpeLoop_newPE_src (facts : PresFacts) (old : Option Nat)
    (ps : List LicensePool) :
    ∀ acc, (cpeLoop facts old ps acc).2.newPE = acc.newPE ∨
      ∃ q ∈ (cpeLoop facts old ps acc).1, skipPool q = false ∧
        q.presentation_edition = (cpeLoop facts old ps acc).2.newPE := by
  induction ps with
  | nil => intro acc; exact Or.inl rfl
  | cons p rest ih =>
    intro acc
    by_cases hs : skipPool p
    · rw [cpeLoop_cons_skip facts old p rest acc hs]
      rcases ih acc with h | ⟨q, hq, hq1, hq2⟩
      · exact Or.inl h
      · exact Or.inr ⟨q, List.mem_cons_of_mem _ hq, hq1, hq2⟩
    · have hs' : skipPool p = false := by simp [hs]
      rw [cpeLoop_cons_go facts old p rest acc hs']
      rcases ih (cpeGoAcc facts old p acc) with h | ⟨q, hq, hq1, hq2⟩
      · by_cases hc : acc.newPE = none ∨
            ((some (facts.choosePoolPE p.pid) : Option Nat) = old ∧ old ≠ none)
        · refine Or.inr ⟨_, List.mem_cons_self _ _, hs', ?_⟩
          rw [h]
          simp only [cpeGoAcc, if_pos hc]
        · refine Or.inl ?_
          rw [h]
          simp only [cpeGoAcc, if_neg hc]
      · exact Or.inr ⟨q, List.mem_cons_of_mem _ hq, hq1, hq2⟩

theorem cpeLoop_newPE_ne_none_keep (facts : PresFacts) (old : Option Nat)
    (ps : List LicensePool) :
    ∀ acc, acc.newPE ≠ none →
      (cpeLoop facts old ps acc).2.newPE ≠ none := by
  induction ps with
  | nil => intro acc h; exact h
  | cons p rest ih =>
    intro acc h
    by_cases hs : skipPool p
    · rw [cpeLoop_cons_skip facts old p rest acc hs]
      exact ih acc h
    · rw [cpeLoop_cons_go facts old p rest acc (by simp [hs])]
      apply ih
      simp only [cpeGoAcc]
      by_cases hc : acc.newPE = none ∨
          ((some (facts.choosePoolPE p.pid) : Option Nat) = old ∧ old ≠ none)
      · rw [if_pos hc]
        exact Option.some_ne_none _
      · rw [if_neg hc]
        exact h

theorem cpeLoop_newPE_ne_none (facts : PresFacts) (old : Option Nat)
    (ps : List LicensePool) :
    ∀ acc, (∃ p ∈ ps, skipPool p = false) →
      (cpeLoop facts old ps acc).2.newPE ≠ none := by
  induction ps with
  | nil =>
    intro acc h
    obtain ⟨p, hp, _⟩ := h
    cases hp
  | cons p rest ih =>
    intro acc h
    by_cases hs : skipPool p
    · rw [cpeLoop_cons_skip facts old p rest acc hs]
      apply ih
      obtain ⟨q, hq, hq1⟩ := h
      rcases List.mem_cons.mp hq with rfl | hmem
      · rw [hs] at hq1; cases hq1
      · exact ⟨q, hmem, hq1⟩
    · rw [cpeLoop_cons_go facts old p rest acc (by simp [hs])]
      apply cpeLoop_newPE_ne_none_keep
      simp only [cpeGoAcc]
      by_cases hc : acc.newPE = none ∨
          ((some (facts.choosePoolPE p.pid) : Option Nat) = old ∧ old ≠ none)
      · rw [if_pos hc]
        exact Option.some_ne_none _
      · rw [if_neg hc]
        intro hn
        exact hc (Or.inl hn)

theorem cpeLoop_all_skip (facts : PresFacts) (old : Option Nat)
    (ps : List LicensePool) :
    ∀ acc, (∀ p ∈ ps, skipPool p = true) →
      cpeLoop facts old ps acc = (ps, acc) := by
  induction ps with
  | nil => intro acc _; rfl
  | cons p rest ih =>
    intro acc h
    rw [cpeLoop_cons_skip facts old p rest acc (h p (List.mem_cons_self _ _))]
    rw [ih acc (fun q hq => h q (List.mem_cons_of_mem _ hq))]

theorem cpeGoAcc_done (facts : PresFacts) (old : Option Nat)
    (p : LicensePool) (acc : CpeAcc) (w : Nat)
    (hs : skipPool p = false)
    (hd : poolDone facts acc.editionState p) (hw : acc.wpe = some w) :
    cpeGoAcc facts old p acc =
      { wpe := some w, editionState := acc.editionState,
        metaChanged := acc.metaChanged,
        newPE := if acc.newPE = none ∨
            ((some (facts.choosePoolPE p.pid) : Option Nat) = old ∧ old ≠ none)
          then some (facts.choosePoolPE p.pid) else acc.newPE } := by
  rcases hd with h | ⟨hpe, hlk⟩
  · rw [hs] at h; cases h
  · simp only [cpeGoAcc]
    rw [upsert_of_lookup _ _ _ hlk, hpe, hw, hlk]
    simp

theorem cpeLoop_done_run (facts : PresFacts) (old : Option Nat)
    (ps : List LicensePool) :
    ∀ acc w, (∀ p ∈ ps, poolDone facts acc.editionState p) →
    acc.wpe = some w →
    (cpeLoop facts old ps acc).1 = ps ∧
    (cpeLoop facts old ps acc).2.editionState = acc.editionState ∧
    (cpeLoop facts old ps acc).2.metaChanged = acc.metaChanged ∧
    (cpeLoop facts old ps acc).2.wpe = some w := by
  induction ps with
  | nil => intro acc w _ hw; exact ⟨rfl, rfl, rfl, hw⟩
  | cons p rest ih =>
    intro acc w hd hw
    by_cases hs : skipPool p
    · rw [cpeLoop_cons_skip facts old p rest acc hs]
      obtain ⟨i1, i2, i3, i4⟩ :=
        ih acc w (fun q hq => hd q (List.mem_cons_of_mem _ hq)) hw
      exact ⟨by rw [i1], i2, i3, i4⟩
    · have hs' : skipPool p = false := by simp [hs]
      have hdp := hd p (List.mem_cons_self _ _)
      have hpe : p.presentation_edition = some (facts.choosePoolPE p.pid) := by
        rcases hdp with h | ⟨h1, _⟩
        · rw [hs'] at h; cases h
        · exact h1
      rw [cpeLoop_cons_go facts old p rest acc hs']
      have hR := cpeGoAcc_done facts old p acc w hs' hdp hw
      obtain ⟨i1, i2, i3, i4⟩ := ih (cpeGoAcc facts old p acc) w
        (fun q hq => by rw [hR]; exact hd q (List.mem_cons_of_mem _ hq))
        (by rw [hR])
      refine ⟨?_, ?_, ?_, i4⟩
      · rw [i1, pool_set_pe_self p _ hpe]
      · rw [i2, hR]
      · rw [i3, hR]

theorem cpeLoop_newPE_keep_old (facts : PresFacts) (old : Option Nat)
    (ps : List LicensePool) (ho : old ≠ none) :
    ∀ acc, acc.newPE = old → (cpeLoop facts old ps acc).2.newPE = old := by
  induction ps with
  | nil => intro acc h; exact h
  | cons p rest ih =>
    intro acc h
    by_cases hs : skipPool p
    · rw [cpeLoop_cons_skip facts old p rest acc hs]
      exact ih acc h
    · rw [cpeLoop_cons_go facts old p rest acc (by simp [hs])]
      apply ih
      simp only [cpeGoAcc]
      by_cases hpot : (some (facts.choosePoolPE p.pid) : Option Nat) = old
      · rw [if_pos (Or.inr ⟨hpot, ho⟩)]
        exact hpot
      · rw [if_neg ?_]
        · exact h
        · rintro (h1 | ⟨h2, _⟩)
          · rw [h] at h1; exact ho h1
          · exact hpot h2

theorem cpeLoop_newPE_reaches_old (facts : PresFacts) (old : Option Nat)
    (ps : List LicensePool) (ho : old ≠ none) :
    ∀ acc, (∀ p ∈ ps, poolDone facts acc.editionState p) →
    (∃ p ∈ ps, skipPool p = false ∧ p.presentation_edition = old) →
    (cpeLoop facts old ps acc).2.newPE = old := by
  induction ps with
  | nil =>
    intro acc _ h
    obtain ⟨q, hq, _⟩ := h
    cases hq
  | cons p rest ih =>
    intro acc hd h
    obtain ⟨q, hqmem, hqs, hqpe⟩ := h
    by_cases hs : skipPool p
    · rw [cpeLoop_cons_skip facts old p rest acc hs]
      apply ih acc (fun r hr => hd r (List.mem_cons_of_mem _ hr))
      rcases List.mem_cons.mp hqmem with rfl | hmem
      · rw [hs] at hqs; cases hqs
      · exact ⟨q, hmem, hqs, hqpe⟩
    · have hs' : skipPool p = false := by simp [hs]
      have hdp := hd p (List.mem_cons_self _ _)
      have hpe : p.presentation_edition = some (facts.choosePoolPE p.pid) := by
        rcases hdp with h0 | ⟨h1, _⟩
        · rw [hs'] at h0; cases h0
        · exact h1
      have hlk : lookupEdition acc.editionState (facts.choosePoolPE p.pid)
          = some (facts.editionDerived (facts.choosePoolPE p.pid)) := by
        rcases hdp with h0 | ⟨_, h2⟩
        · rw [hs'] at h0; cases h0
        · exact h2
      rw [cpeLoop_cons_go facts old p rest acc hs']
      by_cases hpold : p.presentation_edition = old
      · have hpot : (some (facts.choosePoolPE p.pid) : Option Nat) = old := by
          rw [← hpe]; exact hpold
        apply cpeLoop_newPE_keep_old facts old rest ho
        simp only [cpeGoAcc]
        rw [if_pos (Or.inr ⟨hpot, ho⟩)]
        exact hpot
      · have hes : (cpeGoAcc facts old p acc).editionState
            = acc.editionState := by
          simp only [cpeGoAcc]
          exact upsert_of_lookup _ _ _ hlk
        apply ih
        · intro r hr
          rw [hes]
          exact hd r (List.mem_cons_of_mem _ hr)
        · rcases List.mem_cons.mp hqmem with rfl | hmem
          · exact absurd hqpe hpold
          · exact ⟨q, hmem, hqs, hqpe⟩

theorem pwork_eta_pools (w : PWork) :
    ({w with pools := w.pools} : PWork) = w := by
  cases w
  rfl

theorem cpe_fix (facts : PresFacts) (policy : PresentationCalculationPolicy)
    (w : PWork) (h : cpeFixed facts w) :
    calculate_presentation_edition facts policy w = (w, false) := by
  obtain ⟨hmark, hdone, hcase⟩ := h
  by_cases hce : policy.choose_edition
  · simp only [calculate_presentation_edition, hce, Bool.not_true,
      Bool.false_eq_true, if_false]
    simp only [hmark]
    rcases hcase with hall | ⟨hne, hwit⟩
    · have hr := cpeLoop_all_skip facts w.presentation_edition w.pools
        { wpe := w.presentation_edition, editionState := w.editionState,
          metaChanged := false, newPE := none } hall
      simp [hr]
    · obtain ⟨pe0, hpe0⟩ := Option.ne_none_iff_exists'.mp hne
      obtain ⟨i1, i2, i3, i4⟩ := cpeLoop_done_run facts
        w.presentation_edition w.pools
        { wpe := w.presentation_edition, editionState := w.editionState,
          metaChanged := false, newPE := none } pe0 hdone hpe0
      have i5 : (cpeLoop facts w.presentation_edition w.pools
          { wpe := w.presentation_edition, editionState := w.editionState,
            metaChanged := false, newPE := none }).2.newPE
          = w.presentation_edition :=
        cpeLoop_newPE_reaches_old facts w.presentation_edition w.pools hne _
          hdone hwit
      have i4' : (cpeLoop facts w.presentation_edition w.pools
          { wpe := w.presentation_edition, editionState := w.editionState,
            metaChanged := false, newPE := none }).2.wpe
          = w.presentation_edition := i4.trans hpe0.symm
      simp [i1, i2, i3, i4', i5]
  · have hce' : policy.choose_edition = false := by simp [hce]
    simp [calculate_presentation_edition, hce']

theorem agfwLoop_workgenres (total : ℚ) (gw : List (Nat × ℚ)) :
    ∀ acc, (agfwLoop total gw acc).workgenres
      = acc.workgenres ++ gw.map (fun gs => (gs.1, gs.2 / total)) := by
  induction gw with
  | nil => intro acc; simp [agfwLoop]
  | cons gs rest ih =>
    obtain ⟨g, score⟩ := gs
    intro acc
    cases hf : acc.by_genre.find? (fun c => c.1 = g) with
    | none =>
      simp only [agfwLoop, hf]
      rw [ih]
      simp
    | some c =>
      simp only [agfwLoop, hf]
      rw [ih]
      simp

theorem agfwLoop_self (total : ℚ) (gw : List (Nat × ℚ)) :
    ∀ wgs ch, agfwLoop total gw
      { by_genre := gw.map (fun gs => (gs.1, gs.2 / total)),
        workgenres := wgs, changed := ch }
      = { by_genre := [],
          workgenres := wgs ++ gw.map (fun gs => (gs.1, gs.2 / total)),
          changed := ch } := by
  induction gw with
  | nil => intro wgs ch; simp [agfwLoop]
  | cons gs rest ih =>
    obtain ⟨g, score⟩ := gs
    intro wgs ch
    have hf : ((g, score / total) ::
        rest.map (fun gs => (gs.1, gs.2 / total))).find?
          (fun c => c.1 = g) = some (g, score / total) := by
      simp [List.find?_cons]
    simp only [agfwLoop, List.map_cons, hf]
    have her : ((g, score / total) ::
        rest.map (fun gs => (gs.1, gs.2 / total))).eraseP
          (fun c => c.1 = g) = rest.map (fun gs => (gs.1, gs.2 / total)) := by
      simp [List.eraseP_cons]
    rw [her]
    have hch : (ch || decide (round2 (score / total)
        ≠ round2 (score / total))) = ch := by
      simp
    rw [hch]
    rw [ih (wgs ++ [(g, score / total)]) ch]
    simp

theorem agfw_self (gw : List (Nat × ℚ))
    (h : ¬(gw ≠ [] ∧ (gw.map Prod.snd).sum = 0)) :
    assign_genres_from_weights gw
      (gw.map (fun gs => (gs.1, gs.2 / (gw.map Prod.snd).sum)))
      = some (gw.map (fun gs => (gs.1, gs.2 / (gw.map Prod.snd).sum)),
          false) := by
  simp only [assign_genres_from_weights, if_neg h]
  rw [agfwLoop_self]
  simp

theorem pwork_eta_classify (w : PWork) (a : Option Bool) (b : Option String)
    (c : Option (Option Int × Option Int)) (h1 : w.fiction = a)
    (h2 : w.audience = b) (h3 : w.target_age = c) :
    ({w with fiction := a, audience := b, target_age := c} : PWork) = w := by
  cases w
  cases h1
  cases h2
  cases h3
  rfl

theorem pwork_eta_workgenres (w : PWork) (g : List (Nat × ℚ))
    (h : w.work_genres = g) : ({w with work_genres := g} : PWork) = w := by
  cases w
  cases h
  rfl

theorem pwork_eta_quality (w : PWork) (q : Option ℚ)
    (h : w.quality = q) : ({w with quality := q} : PWork) = w := by
  cases w
  cases h
  rfl

theorem set_summary_self (choice : Option (Nat × String)) (w : PWork)
    (h1 : w.summary = summaryIdOf choice)
    (h2 : w.summary_text = summaryTextOf choice) :
    set_summary choice w = w := by
  cases choice with
  | none =>
    simp only [set_summary]
    have h1' : w.summary = none := h1
    have h2' : w.summary_text = "" := h2
    cases w
    cases h1'
    cases h2'
    rfl
  | some c =>
    simp only [set_summary]
    have h1' : w.summary = some c.1 := h1
    have h2' : w.summary_text = c.2 := h2
    cases w
    cases h1'
    cases h2'
    rfl

theorem assign_genres_self (facts : PresFacts) (w : PWork)
    (h1 : w.fiction = facts.classifierFiction)
    (h2 : w.audience = facts.classifierAudience)
    (h3 : w.target_age = facts.classifierTargetAge)
    (h4 : ¬(facts.classifierGenres ≠ []
        ∧ (facts.classifierGenres.map Prod.snd).sum = 0))
    (h5 : w.work_genres = facts.classifierGenres.map
        (fun gs => (gs.1, gs.2 / (facts.classifierGenres.map Prod.snd).sum))) :
    assign_genres facts w = some (w, false) := by
  simp only [assign_genres]
  have hsc : assign_genres_from_weights facts.classifierGenres w.work_genres
      = some (w.work_genres, false) := by
    rw [h5]
    exact agfw_self _ h4
  simp only [hsc]
  simp [← h1, ← h2, ← h3]

theorem presFixed_stages (facts : PresFacts)
    (policy : PresentationCalculationPolicy) (w : PWork)
    (h : presFixed facts policy w) :
    calculate_presentation_edition facts policy w = (w, false)
    ∧ (if policy.classify then assign_genres facts w
        else some (w, false)) = some (w, false)
    ∧ (if policy.choose_summary
        then set_summary facts.summaryChoice w else w) = w := by
  obtain ⟨hcpe0, hcl0, hsum0, _⟩ := h
  refine ⟨?_, ?_, ?_⟩
  · by_cases hce : policy.choose_edition
    · exact cpe_fix facts policy w (hcpe0 hce)
    · have hce' : policy.choose_edition = false := by simp [hce]
      simp [calculate_presentation_edition, hce']
  · by_cases hcl : policy.classify
    · obtain ⟨h1, h2, h3, h4, h5⟩ := hcl0 hcl
      rw [if_pos hcl]
      exact assign_genres_self facts w h1 h2 h3 h4 h5
    · rw [if_neg hcl]
  · by_cases hcs : policy.choose_summary
    · obtain ⟨h1, h2⟩ := hsum0 hcs
      rw [if_pos hcs]
      exact set_summary_self _ _ h1 h2
    · rw [if_neg hcs]

theorem calc_pres_of_fixed (facts : PresFacts)
    (policy : PresentationCalculationPolicy) (now : Nat) (w : PWork)
    (q : ℚ) (h : presFixed facts policy w) (hq : w.quality = some q) :
    calculate_presentation facts policy now w = some (w, false) := by
  obtain ⟨hcpe, hag, hss⟩ := presFixed_stages facts policy w h
  have hq0 := h.2.2.2
  have hqq : (if policy.calculate_quality then
      ({w with quality := some (facts.overallQuality
        (calculatePresentationDefaultQuality
          (licensedDataSources w.pools)))} : PWork)
      else w) = w := by
    by_cases hcq : policy.calculate_quality
    · rw [if_pos hcq]
      exact pwork_eta_quality w _ (hq0 hcq)
    · rw [if_neg hcq]
  simp only [calculate_presentation, hcpe]
  simp only [hag]
  simp only [hss, hqq, hq]
  simp

theorem calc_pres_raises_of_fixed (facts : PresFacts)
    (policy : PresentationCalculationPolicy) (now : Nat) (w : PWork)
    (h : presFixed facts policy w) (hq : w.quality = none) :
    calculate_presentation facts policy now w = none := by
  obtain ⟨hcpe, hag, hss⟩ := presFixed_stages facts policy w h
  have hq0 := h.2.2.2
  have hqq : (if policy.calculate_quality then
      ({w with quality := some (facts.overallQuality
        (calculatePresentationDefaultQuality
          (licensedDataSources w.pools)))} : PWork)
      else w) = w := by
    by_cases hcq : policy.calculate_quality
    · exfalso
      rw [hq0 hcq] at hq
      cases hq
    · rw [if_neg hcq]
  simp only [calculate_presentation, hcpe]
  simp only [hag]
  simp only [hss, hqq, hq]
  simp

theorem cpe_post (facts : PresFacts) (policy : PresentationCalculationPolicy)
    (w : PWork) (hce : policy.choose_edition = true) :
    cpeFixed facts (calculate_presentation_edition facts policy w).1 := by
  simp only [calculate_presentation_edition, hce, Bool.not_true,
    Bool.false_eq_true, if_false]
  generalize hR : cpeLoop facts w.presentation_edition
    (mark_licensepools_as_superceded w.pools)
    { wpe := w.presentation_edition, editionState := w.editionState,
      metaChanged := false, newPE := none } = R
  have hpost := cpeLoop_post facts w.presentation_edition
    (mark_licensepools_as_superceded w.pools)
    { wpe := w.presentation_edition, editionState := w.editionState,
      metaChanged := false, newPE := none }
  rw [hR] at hpost
  have hpeE := cpeLoop_map_peErase facts w.presentation_edition
    (mark_licensepools_as_superceded w.pools)
    { wpe := w.presentation_edition, editionState := w.editionState,
      metaChanged := false, newPE := none }
  rw [hR] at hpeE
  have hnsrc := cpeLoop_newPE_src facts w.presentation_edition
    (mark_licensepools_as_superceded w.pools)
    { wpe := w.presentation_edition, editionState := w.editionState,
      metaChanged := false, newPE := none }
  rw [hR] at hnsrc
  have hmc : R.1.map markCore
      = (mark_licensepools_as_superceded w.pools).map markCore :=
    mapProjOfMap peErase markCore markCore
      (fun p => (markCore_peErase p).symm) hpeE
  have hmc2 : (mark_licensepools_as_superceded w.pools).map markCore
      = w.pools.map markCore :=
    mapProjOfMap eraseSup markCore markCore (fun p => rfl)
      (mark_map_eraseSup w.pools)
  have hflags1 : R.1.map LicensePool.superceded
      = (mark_licensepools_as_superceded w.pools).map LicensePool.superceded :=
    mapProjOfMap peErase LicensePool.superceded LicensePool.superceded
      (fun p => rfl) hpeE
  have hcongr := (mark_congr R.1 w.pools (hmc.trans hmc2)).1
  have hfix : mark_licensepools_as_superceded R.1 = R.1 :=
    mark_eq_self R.1 (hcongr.trans hflags1.symm)
  by_cases hex : ∃ p ∈ mark_licensepools_as_superceded w.pools,
      skipPool p = false
  · have hnn : R.2.newPE ≠ none := by
      have h := cpeLoop_newPE_ne_none facts w.presentation_edition
        (mark_licensepools_as_superceded w.pools)
        { wpe := w.presentation_edition, editionState := w.editionState,
          metaChanged := false, newPE := none } hex
      rw [hR] at h
      exact h
    rcases hnsrc with h0 | ⟨qq, hq1, hq2, hq3⟩
    · exact absurd h0 hnn
    · by_cases hc : (R.2.wpe ≠ R.2.newPE ∧ R.2.newPE ≠ none)
      · rw [if_pos hc]
        exact ⟨hfix, hpost, Or.inr ⟨hnn, qq, hq1, hq2, hq3⟩⟩
      · rw [if_neg hc]
        have heq : R.2.wpe = R.2.newPE := by
          by_contra hne
          exact hc ⟨hne, hnn⟩
        refine ⟨hfix, hpost, Or.inr ⟨?_, qq, hq1, hq2, ?_⟩⟩
        · exact fun h => hnn (heq.symm.trans h)
        · exact hq3.trans heq.symm
  · have hall : ∀ p ∈ mark_licensepools_as_superceded w.pools,
        skipPool p = true := by
      intro p hp
      by_contra hc2
      exact hex ⟨p, hp, by simpa using hc2⟩
    have hr2 := cpeLoop_all_skip facts w.presentation_edition
      (mark_licensepools_as_superceded w.pools)
      { wpe := w.presentation_edition, editionState := w.editionState,
        metaChanged := false, newPE := none } hall
    rw [hR] at hr2
    subst hr2
    have hcond : ¬(w.presentation_edition ≠ (none : Option Nat)
        ∧ (none : Option Nat) ≠ none) := by
      rintro ⟨_, h2⟩
      exact h2 rfl
    rw [if_neg hcond]
    exact ⟨hfix, hpost, Or.inl hall⟩

theorem agfw_some (gw : List (Nat × ℚ)) (cur : List (Nat × ℚ))
    (r : List (Nat × ℚ) × Bool)
    (h : assign_genres_from_weights gw cur = some r) :
    r.1 = gw.map (fun gs => (gs.1, gs.2 / (gw.map Prod.snd).sum))
    ∧ ¬(gw ≠ [] ∧ (gw.map Prod.snd).sum = 0) := by
  by_cases hg : gw ≠ [] ∧ (gw.map Prod.snd).sum = 0
  · rw [assign_genres_from_weights, if_pos hg] at h
    cases h
  · rw [assign_genres_from_weights, if_neg hg] at h
    refine ⟨?_, hg⟩
    have h1 := congrArg Prod.fst (Option.some.inj h)
    rw [← h1]
    rw [agfwLoop_workgenres]
    simp

theorem assign_genres_core (facts : PresFacts) (w : PWork)
    (c : PWork × Bool) (h : assign_genres facts w = some c) :
    c.1.pools = w.pools
    ∧ c.1.editionState = w.editionState
    ∧ c.1.presentation_edition = w.presentation_edition
    ∧ c.1.summary = w.summary
    ∧ c.1.summary_text = w.summary_text
    ∧ c.1.quality = w.quality
    ∧ c.1.fiction = facts.classifierFiction
    ∧ c.1.audience = facts.classifierAudience
    ∧ c.1.target_age = facts.classifierTargetAge
    ∧ c.1.work_genres = facts.classifierGenres.map
        (fun gs => (gs.1, gs.2 / (facts.classifierGenres.map Prod.snd).sum))
    ∧ ¬(facts.classifierGenres ≠ []
        ∧ (facts.classifierGenres.map Prod.snd).sum = 0) := by
  simp only [assign_genres] at h
  cases hw : assign_genres_from_weights facts.classifierGenres
      w.work_genres with
  | none => rw [hw] at h; cases h
  | some r =>
    rw [hw] at h
    simp only [] at h
    obtain ⟨hr1, hr2⟩ := agfw_some _ _ _ hw
    have hc := congrArg Prod.fst (Option.some.inj h)
    rw [← hc]
    exact ⟨rfl, rfl, rfl, rfl, rfl, rfl, rfl, rfl, rfl, hr1, hr2⟩

theorem set_summary_keeps (choice : Option (Nat × String)) (w : PWork) :
    (set_summary choice w).pools = w.pools
    ∧ (set_summary choice w).editionState = w.editionState
    ∧ (set_summary choice w).presentation_edition = w.presentation_edition
    ∧ (set_summary choice w).quality = w.quality
    ∧ (set_summary choice w).fiction = w.fiction
    ∧ (set_summary choice w).audience = w.audience
    ∧ (set_summary choice w).target_age = w.target_age
    ∧ (set_summary choice w).work_genres = w.work_genres := by
  cases choice <;> exact ⟨rfl, rfl, rfl, rfl, rfl, rfl, rfl, rfl⟩

theorem set_summary_summary (choice : Option (Nat × String)) (w : PWork) :
    (set_summary choice w).summary = summaryIdOf choice := by
  cases choice <;> rfl

theorem set_summary_summary_text (choice : Option (Nat × String)) (w : PWork) :
    (set_summary choice w).summary_text = summaryTextOf choice := by
  cases choice <;> rfl

theorem cpeFixed_congr (facts : PresFacts) (w w' : PWork)
    (h : cpeFixed facts w) (hp : w'.pools = w.pools)
    (he : w'.editionState = w.editionState)
    (hpe : w'.presentation_edition = w.presentation_edition) :
    cpeFixed facts w' := by
  simp only [cpeFixed, hp, he, hpe]
  exact h

theorem presFixed_time (facts : PresFacts)
    (policy : PresentationCalculationPolicy) (w : PWork) (t : Nat)
    (h : presFixed facts policy w) :
    presFixed facts policy ({w with last_update_time := t} : PWork) := h

theorem calc_pres_some_fixed (facts : PresFacts)
    (policy : PresentationCalculationPolicy) (now : Nat)
    (w0 w1 : PWork) (c1 : Bool)
    (h : calculate_presentation facts policy now w0 = some (w1, c1)) :
    presFixed facts policy w1 := by
  simp only [calculate_presentation] at h
  set wA : PWork := (calculate_presentation_edition facts policy w0).1
    with hwA
  cases hX : (if policy.classify = true then assign_genres facts wA
      else some ((wA, false) : PWork × Bool)) with
  | none => simp [hX] at h
  | some c =>
    simp only [hX] at h
    have hBrel : c.1.pools = wA.pools
        ∧ c.1.editionState = wA.editionState
        ∧ c.1.presentation_edition = wA.presentation_edition
        ∧ c.1.summary = wA.summary
        ∧ c.1.summary_text = wA.summary_text
        ∧ c.1.quality = wA.quality := by
      by_cases hcl : policy.classify = true
      · rw [if_pos hcl] at hX
        obtain ⟨a1, a2, a3, a4, a5, a6, _⟩ := assign_genres_core facts wA c hX
        exact ⟨a1, a2, a3, a4, a5, a6⟩
      · rw [if_neg hcl] at hX
        rw [← Option.some.inj hX]
        exact ⟨rfl, rfl, rfl, rfl, rfl, rfl⟩
    obtain ⟨b1, b2, b3, b4, b5, b6⟩ := hBrel
    have hBcl : policy.classify = true →
        c.1.fiction = facts.classifierFiction
        ∧ c.1.audience = facts.classifierAudience
        ∧ c.1.target_age = facts.classifierTargetAge
        ∧ c.1.work_genres = facts.classifierGenres.map
            (fun gs => (gs.1, gs.2 / (facts.classifierGenres.map Prod.snd).sum))
        ∧ ¬(facts.classifierGenres ≠ []
            ∧ (facts.classifierGenres.map Prod.snd).sum = 0) := by
      intro hcl
      rw [if_pos hcl] at hX
      obtain ⟨_, _, _, _, _, _, a7, a8, a9, a10, a11⟩ :=
        assign_genres_core facts wA c hX
      exact ⟨a7, a8, a9, a10, a11⟩
    set wC : PWork := if policy.choose_summary = true
      then set_summary facts.summaryChoice c.1 else c.1 with hwC
    set wD : PWork := if policy.calculate_quality = true
      then ({wC with quality := some (facts.overallQuality
        (calculatePresentationDefaultQuality
          (licensedDataSources wA.pools)))} : PWork)
      else wC with hwD
    have hCkeep : wC.pools = c.1.pools
        ∧ wC.editionState = c.1.editionState
        ∧ wC.presentation_edition = c.1.presentation_edition
        ∧ wC.fiction = c.1.fiction
        ∧ wC.audience = c.1.audience
        ∧ wC.target_age = c.1.target_age
        ∧ wC.work_genres = c.1.work_genres
        ∧ wC.quality = c.1.quality := by
      rw [hwC]
      by_cases hcs : policy.choose_summary = true
      · rw [if_pos hcs]
        obtain ⟨k1, k2, k3, k4, k5, k6, k7, k8⟩ :=
          set_summary_keeps facts.summaryChoice c.1
        exact ⟨k1, k2, k3, k5, k6, k7, k8, k4⟩
      · rw [if_neg hcs]
        exact ⟨rfl, rfl, rfl, rfl, rfl, rfl, rfl, rfl⟩
    obtain ⟨c1k, c2k, c3k, c4k, c5k, c6k, c7k, c8k⟩ := hCkeep
    have hCsum : policy.choose_summary = true →
        wC.summary = summaryIdOf facts.summaryChoice
        ∧ wC.summary_text = summaryTextOf facts.summaryChoice := by
      intro hcs
      rw [hwC, if_pos hcs]
      exact ⟨set_summary_summary _ _, set_summary_summary_text _ _⟩
    have hDkeep : wD.pools = wC.pools
        ∧ wD.editionState = wC.editionState
        ∧ wD.presentation_edition = wC.presentation_edition
        ∧ wD.fiction = wC.fiction
        ∧ wD.audience = wC.audience
        ∧ wD.target_age = wC.target_age
        ∧ wD.work_genres = wC.work_genres
        ∧ wD.summary = wC.summary
        ∧ wD.summary_text = wC.summary_text := by
      rw [hwD]
      by_cases hcq : policy.calculate_quality = true
      · rw [if_pos hcq]
        exact ⟨rfl, rfl, rfl, rfl, rfl, rfl, rfl, rfl, rfl⟩
      · rw [if_neg hcq]
        exact ⟨rfl, rfl, rfl, rfl, rfl, rfl, rfl, rfl, rfl⟩
    obtain ⟨d1, d2, d3, d4, d5, d6, d7, d8, d9⟩ := hDkeep
    have hqDq : policy.calculate_quality = true →
        wD.quality = some (facts.overallQuality 0) := by
      intro hcq
      rw [hwD, if_pos hcq]
      have hz : calculatePresentationDefaultQuality
          (licensedDataSources wA.pools) = 0 := rfl
      exact congrArg (fun r => some (facts.overallQuality r)) hz
    have hD : presFixed facts policy wD := by
      refine ⟨?_, ?_, ?_, hqDq⟩
      · intro hce
        exact cpeFixed_congr facts wA wD (cpe_post facts policy w0 hce)
          (d1.trans (c1k.trans b1)) (d2.trans (c2k.trans b2))
          (d3.trans (c3k.trans b3))
      · intro hcl
        obtain ⟨e1, e2, e3, e4, e5⟩ := hBcl hcl
        exact ⟨(d4.trans c4k).trans e1, (d5.trans c5k).trans e2,
          (d6.trans c6k).trans e3, e5, (d7.trans c7k).trans e4⟩
      · intro hcs
        obtain ⟨s1, s2⟩ := hCsum hcs
        exact ⟨d8.trans s1, d9.trans s2⟩
    obtain ⟨p1, p2, p3, p4⟩ := hD
    split at h
    · have hpair := Option.some.inj h
      injection hpair with hw1 hflag
      rw [← hw1]
      exact presFixed_time facts policy wD now ⟨p1, p2, p3, p4⟩
    · cases hqA : wA.quality with
      | none =>
        cases hqDv : wD.quality with
        | none => simp [hqA, hqDv] at h
        | some qNew => simp [hqA, hqDv] at h
      | some qOld =>
        cases hqDv : wD.quality with
        | none => simp [hqA, hqDv] at h
        | some qNew =>
          simp only [hqA, hqDv] at h
          have hpair := Option.some.inj h
          injection hpair with hw1 hflag
          rw [← hw1]
          split
          · refine ⟨?_, ?_, ?_, ?_⟩
            · intro hce
              exact cpeFixed_congr facts wD _ (p1 hce) rfl rfl rfl
            · intro hcl
              exact p2 hcl
            · intro hcs
              exact p3 hcs
            · intro hcq
              exact hqDv.symm.trans (p4 hcq)
          · exact ⟨p1, p2, p3, p4⟩

/-- C5 (amended): the second run of `Work.calculate_presentation` with
the same policy and no intervening data changes is an exact dichotomy on
the Work the first run produced.  If `w1` carries a quality value, the
second run returns `w1` itself with `changed = false` and in particular
does not alter `last_update_time`; if `w1`'s quality is NULL (possible
only when `calculate_quality` is off), every earlier disjunct of the
`changed` chain at model.py 3669-3675 is false on the second run, so the
chain reaches `float(None)` and raises `TypeError` instead of reporting
`changed = false`.  The source's claimed unconditional idempotence
therefore holds exactly for Works whose quality is set. -/
theorem calculate_presentation_idempotent (facts : PresFacts)
    (policy : PresentationCalculationPolicy) (now1 now2 : Nat)
    (w0 w1 : PWork) (c1 : Bool)
    (h : calculate_presentation facts policy now1 w0 = some (w1, c1)) :
    (∀ q, w1.quality = some q →
      calculate_presentation facts policy now2 w1 = some (w1, false))
    ∧ (w1.quality = none →
      calculate_presentation facts policy now2 w1 = none) :=
  ⟨fun q hq => calc_pres_of_fixed facts policy now2 w1 q
      (calc_pres_some_fixed facts policy now1 w0 w1 c1 h) hq,
   fun hq => calc_pres_raises_of_fixed facts policy now2 w1
      (calc_pres_some_fixed facts policy now1 w0 w1 c1 h) hq⟩

/-- Witness for C5: running the pipeline on the concrete Work `c5W0`
(whose quality is set) produces `c5W1` with `changed = true`; the second
run at a later time returns `c5W1` unchanged with `changed = false`. -/
theorem calculate_presentation_idempotent_witness :
    calculate_presentation c5Facts c5Policy 222 c5W1 = some (c5W1, false) :=
  (calculate_presentation_idempotent c5Facts c5Policy 111 222 c5W0 c5W1
      true (by with_unfolding_all rfl)).1 (1/2) (by with_unfolding_all rfl)

/-- Counterexample to C5's original unconditional idempotence: on a
fresh Work with NULL quality under a policy with `calculate_quality`
off, the first run succeeds with `changed = True` because the `or`
chain short-circuits on the edition and summary changes before reaching
`float(quality)`, but the second run finds every earlier disjunct false
and raises `TypeError` at `float(None)` (model.py line 3674) instead of
returning `changed = false`. -/
theorem calculate_presentation_second_run_raises :
    calculate_presentation c5Facts c5PolicyNoQuality 111 c5NoQualityW0
      = some (c5NoQualityW1, true)
    ∧ calculate_presentation c5Facts c5PolicyNoQuality 222 c5NoQualityW1
      = none :=
  ⟨by with_unfolding_all rfl, by with_unfolding_all rfl⟩

end SC
